import Mathlib

set_option linter.unusedVariables false

/-!
Verification of the zk-money frontend modules against their specification.

This file gives a shallow embedding of four modules:
  * the Euler redemption bridge-data adapter
    (src/bridge-clients/client/euler/euler-redemption-bridge-data.ts),
  * the transaction progress view (views/account/progress_template.tsx),
  * the countdown data hook (bridge_count_down hooks),
  * the account migration form (app/account_forms/migrate_form.ts).

JavaScript bigint values are modelled as Int, JavaScript numbers used for
exact comparisons as Int, and JavaScript floating-point arithmetic in the
countdown hook as exact rational arithmetic over Rat.  Asynchronous SDK and
contract calls are modelled by explicit environment records supplying their
results, and by event traces recording the calls a workflow makes.
-/

/-! ## Message types and form fields

The form helper library (app/form.ts) is not part of the sources; the
helpers below are modelled from the specification, which states that errors
are surfaced as user-facing form messages attached to form fields. -/

/-- Modelled from the spec: the message kind attached to a form field; the
specification distinguishes user-facing error messages from warnings and
plain text. -/
inductive MessageType where
  | TEXT
  | WARNING
  | ERROR
deriving DecidableEq, Repr

/-- Modelled from the spec: a form field carrying a value and an optional
user-facing message of some kind (app/form.ts is not under the sources). -/
structure FormField (α : Type) where
  value : α
  message : Option String
  messageType : Option MessageType
deriving DecidableEq, Repr

/-- Modelled from the spec: attach an error message to a form field. -/
def withError {α : Type} (f : FormField α) (msg : String) : FormField α :=
  { f with message := some msg, messageType := some MessageType.ERROR }

/-- Modelled from the spec: attach a warning message to a form field. -/
def withWarning {α : Type} (f : FormField α) (msg : String) : FormField α :=
  { f with message := some msg, messageType := some MessageType.WARNING }

/-- Modelled from the spec: clear the message of a form field. -/
def clearMessage {α : Type} (f : FormField α) : FormField α :=
  { f with message := none, messageType := none }

/-- Whether a form field carries an error message. -/
def fieldHasError {α : Type} (f : FormField α) : Bool :=
  decide (f.messageType = some MessageType.ERROR)

/-- Modelled from the spec: the lifecycle status of an account form
(app/form.ts is not under the sources); a form is locked while confirming
and processing while a submission runs. -/
inductive FormStatus where
  | ACTIVE
  | LOCKED
  | PROCESSING
deriving DecidableEq, Repr

/-! ## Euler redemption bridge data
(src/bridge-clients/client/euler/euler-redemption-bridge-data.ts) -/

/-- An Aztec asset as consumed by the bridge data adapters: only the id and
the ERC20 address are used by this adapter. -/
structure AztecAsset where
  id : Nat
  erc20Address : String
deriving DecidableEq, Repr

/-- An asset/value pair returned by bridge data getters. -/
structure AssetValue where
  assetId : Nat
  value : Int
deriving DecidableEq, Repr

/-- The underlying-asset description returned by getUnderlyingAmount. -/
structure UnderlyingAsset where
  address : String
  name : String
  symbol : String
  decimals : Nat
  amount : Int
deriving DecidableEq, Repr

/-- The minTokenOut table of EulerRedemptionBridgeData: a record literal
keyed by asset id; indexing with any other id yields undefined, modelled as
none. -/
def minTokenOut (id : Nat) : Option Int :=
  if id = 0 then some (99 * 10 ^ 16)
  else if id = 1 then some (96 * 10 ^ 16)
  else if id = 2 then some (99 * 10 ^ 16)
  else if id = 5 then some (99 * 10 ^ 16)
  else if id = 6 then some (99 * 10 ^ 16)
  else if id = 7 then some (96 * 10 ^ 16)
  else none

/-- getAuxData returns a one-element array holding the minTokenOut entry of
the first output asset; the entry is undefined (none) for ids outside the
table. -/
def getAuxData (inputAssetA inputAssetB outputAssetA outputAssetB : AztecAsset) :
    List (Option Int) :=
  [minTokenOut outputAssetA.id]

/-- getExpectedOutput returns a one-element array with the truncating bigint
quotient of inputValue * auxData by 10 ^ 18; it reads none of the asset
arguments and makes no contract call.  The second component of the result
records the contract calls made, which are none. -/
def getExpectedOutput (inputAssetA inputAssetB outputAssetA outputAssetB : AztecAsset)
    (auxData inputValue : Int) : List Int × List String :=
  ([Int.div (inputValue * auxData) (10 ^ 18)], [])

/-- The ethereum environment supplying results of the read-only contract
calls made by getUnderlyingAmount. -/
structure EthEnv where
  vaultAsset : String → String
  tokenName : String → String
  tokenSymbol : String → String
  tokenDecimals : String → Nat

/-- getUnderlyingAmount: reads the vault of the share asset and the ERC20
metadata of the underlying token, and computes the underlying amount as
amount * minTokenOut[share.id] / 10 ^ 18.  When the share id is outside the
minTokenOut table the multiplication by undefined throws a TypeError,
modelled as an error result. -/
def getUnderlyingAmount (env : EthEnv) (share : AztecAsset) (amount : Int) :
    Except String UnderlyingAsset :=
  let assetAddress := env.vaultAsset share.erc20Address
  match minTokenOut share.id with
  | none => Except.error "TypeError"
  | some m =>
      Except.ok
        { address := assetAddress
          name := env.tokenName assetAddress
          symbol := env.tokenSymbol assetAddress
          decimals := env.tokenDecimals assetAddress
          amount := Int.div (amount * m) (10 ^ 18) }

/-- getAPR always resolves to 0. -/
def getAPR (yieldAsset : AztecAsset) : Int := 0

/-- getMarketSize resolves to a one-element array with value 0 for the first
input asset. -/
def getMarketSize (inputAssetA inputAssetB outputAssetA outputAssetB : AztecAsset)
    (auxData : Int) : List AssetValue :=
  [{ assetId := inputAssetA.id, value := 0 }]

/-- getInteractionPresentValue is unimplemented and throws. -/
def getInteractionPresentValue (interactionNonce : Nat) (inputValue : Int) :
    Except String (List AssetValue) :=
  Except.error "Method not implemented."

/-- getExpiration is unimplemented and throws. -/
def getExpiration (interactionNonce : Nat) : Except String Int :=
  Except.error "Method not implemented."

/-- hasFinalised is unimplemented and throws. -/
def hasFinalised (interactionNonce : Nat) : Except String Bool :=
  Except.error "Method not implemented."

/-- getInteractionAPR is unimplemented and throws. -/
def getInteractionAPR (interactionNonce : Nat) : Except String (List Int) :=
  Except.error "Method not implemented."

/-- getTermAPR is unimplemented and throws. -/
def getTermAPR (underlying : AztecAsset) (auxData inputValue : Int) : Except String Int :=
  Except.error "Method not implemented."

/-- getBorrowingFee is unimplemented and throws. -/
def getBorrowingFee (borrowAmount : Int) : Except String Int :=
  Except.error "Method not implemented."

/-- getCurrentCR is unimplemented and throws; it takes no arguments, modelled
with a unit argument marking the call. -/
def getCurrentCR (u : Unit) : Except String Int :=
  Except.error "Method not implemented."

/-- getUserDebtAndCollateral is unimplemented and throws. -/
def getUserDebtAndCollateral (tbAmount : Int) : Except String (Int × Int) :=
  Except.error "Method not implemented."

/-- getCustomMaxPrice is unimplemented and throws. -/
def getCustomMaxPrice (slippage : Int) : Except String Int :=
  Except.error "Method not implemented."

/-! ## Progress template (views/account/progress_template.tsx) -/

/-- The four flags handed to a TxProgress step row. -/
structure TxProgressFlags where
  done : Bool
  isLoading : Bool
  failed : Bool
  inactive : Bool
deriving DecidableEq, Repr

/-- The failed flag of ProgressTemplate: an error message is present, that
is the message type is ERROR and the message is a non-empty string. -/
def progressTemplateFailed (message : Option String) (messageType : Option MessageType) :
    Bool :=
  decide (messageType = some MessageType.ERROR) &&
    (match message with
     | some s => !(decide (s = ""))
     | none => false)

/-- createProgress of ProgressTemplate: the flags handed to the TxProgress
row of a step with the given status, relative to the current status. -/
def createProgress (currentStatus : Int) (failed : Bool) (status : Int) : TxProgressFlags :=
  { done := decide (status < currentStatus)
    isLoading := decide (status = currentStatus) && !failed
    failed := decide (status = currentStatus) && failed
    inactive := decide (status > currentStatus) }

/-! ## Countdown data hook (bridge count down hooks, unnamed source file)

JavaScript converts the gas bigints with Number and divides as IEEE 754
doubles; this arithmetic is modelled exactly over the rationals. -/

/-- A per-bridge status entry of the rollup provider status. -/
structure BridgeStatus where
  bridgeCallData : Int
  numTxs : Nat
  gasAccrued : Int
  gasThreshold : Int

/-- The runtime configuration of the rollup provider status. -/
structure RuntimeConfig where
  defaultDeFiBatchSize : Nat

/-- The rollup provider status as consumed by useCountDownData. -/
structure RollupProviderStatus where
  bridgeStatus : List BridgeStatus
  runtimeConfig : RuntimeConfig

/-- The slot data computed by useCountDownData (the settlement-time estimate
is delegated to an external helper and not modelled). -/
structure CountDownData where
  totalSlots : Nat
  takenSlots : Int

/-- useCountDownData: finds the bridge status matching the bridge call data,
takes its transaction count (or the default batch size) as the total slots,
and fills slots proportionally to the clamped gas fraction. -/
def useCountDownData (rpStatus : Option RollupProviderStatus) (bridgeCallData : Option Int) :
    Option CountDownData :=
  match rpStatus with
  | none => none
  | some rp =>
      let status := rp.bridgeStatus.find? (fun x => decide (some x.bridgeCallData = bridgeCallData))
      let totalSlots : Nat :=
        match status with
        | some s => s.numTxs
        | none => rp.runtimeConfig.defaultDeFiBatchSize
      let fraction : ℚ :=
        match status with
        | some s => (s.gasAccrued : ℚ) / (s.gasThreshold : ℚ)
        | none => 0
      let takenSlots : Int := Int.floor ((totalSlots : ℚ) * min 1 (max 0 fraction))
      some { totalSlots := totalSlots, takenSlots := takenSlots }

/-! ## Migration form (app/account_forms/migrate_form.ts)

The form is a state machine over its value bag; asynchronous SDK calls are
modelled by environment records supplying their results, and each workflow
method returns, besides the final state, the list of value snapshots emitted
by updateFormValues (one per call, in order) and the trace of external SDK,
database and account calls it performed.  The destroyed flag of the form can
be set by a concurrent destroy call between awaits; it is modelled as a
function from check indices to the value the flag has when the migration
loop reads it. -/

/-- A per-asset entry of the migration form value bag. -/
structure MigratingAsset where
  assetId : Nat
  fee : Int
  totalFee : Int
  values : List Int
  migratableValues : List Int
  migratedValues : List Int
deriving DecidableEq, Repr

/-- getMigratableValues: walks the note values two at a time and keeps each
chunk whose sum exceeds the fee. -/
def getMigratableValues : List Int → Int → List Int
  | [], _ => []
  | [x], fee =>
      if [x].foldl (fun sum value => sum + value) 0 > fee then [x] else []
  | x :: y :: rest, fee =>
      (if [x, y].foldl (fun sum value => sum + value) 0 > fee then [x, y] else []) ++
        getMigratableValues rest fee

/-- The linear status enumeration of the migration form. -/
inductive MigrateStatus where
  | CONNECT
  | SYNC
  | CONFIRM
  | VALIDATE
  | MIGRATE
  | DONE
deriving DecidableEq, Repr

/-- The numeric value of a migration status in the source enumeration. -/
def MigrateStatus.toNat : MigrateStatus → Nat
  | .CONNECT => 0
  | .SYNC => 1
  | .CONFIRM => 2
  | .VALIDATE => 3
  | .MIGRATE => 4
  | .DONE => 5

/-- The value bag of the migration form: the migrating assets field, the
status field and the submit field. -/
structure MigrateFormValues where
  migratingAssets : FormField (List MigratingAsset)
  status : MigrateStatus
  submit : FormField Bool
deriving DecidableEq, Repr

/-- Modelled from the spec: a form is valid when no field carries an error
message (app/form.ts is not under the sources).  The status field holds no
message. -/
def isValidForm (v : MigrateFormValues) : Bool :=
  !(fieldHasError v.migratingAssets || fieldHasError v.submit)

/-- The initial form values: one entry per configured asset (the asset
configuration is not under the sources, so the list of asset ids is a
parameter), zero fees, empty value lists, status CONNECT, submit false. -/
def initialMigrateFormValues (assetIds : List Nat) : MigrateFormValues :=
  { migratingAssets :=
      { value := assetIds.map (fun id =>
          { assetId := id, fee := 0, totalFee := 0, values := [],
            migratableValues := [], migratedValues := [] })
        message := none, messageType := none }
    status := MigrateStatus.CONNECT
    submit := { value := false, message := none, messageType := none } }

/-- The part of the form state outside the value bag: the form status. -/
structure MigrateFormState where
  values : MigrateFormValues
  formStatus : FormStatus
deriving DecidableEq, Repr

/-- The initial state of the migration form. -/
def initialState (assetIds : List Nat) : MigrateFormState :=
  { values := initialMigrateFormValues assetIds, formStatus := FormStatus.ACTIVE }

/-- The external calls a migration form workflow can make. -/
inductive MigrateEvent where
  | addUser
  | awaitUserSynchronised
  | createTransferProof (assetId : Nat) (amount : Int) (fee : Int)
  | sendProof (assetId : Nat) (amount : Int) (fee : Int)
  | addMigratingTx (assetId : Nat) (amount : Int) (fee : Int)
  | removeUser
deriving DecidableEq, Repr

/-- The result of running a workflow method: final state, value snapshots
(one per updateFormValues call) and external call trace. -/
structure OpResult where
  state : MigrateFormState
  snapshots : List MigrateFormValues
  events : List MigrateEvent
deriving Repr

/-- The result of the inner migration loops: final values, snapshots,
events, the next destroyed-check index and whether the loop aborted at a
destroyed check. -/
structure LoopResult where
  values : MigrateFormValues
  snapshots : List MigrateFormValues
  events : List MigrateEvent
  checkIndex : Nat
  aborted : Bool
deriving Repr

/-- Replace the migrating assets list inside the value bag. -/
def setMigratingAssets (v : MigrateFormValues) (l : List MigratingAsset) :
    MigrateFormValues :=
  { v with migratingAssets := { v.migratingAssets with value := l } }

/-- updateMigratingAssets of migrateNotes: append the sent value to the
migratedValues of the asset with the given id. -/
def updateMigratingAssets (l : List MigratingAsset) (assetId : Nat) (value : Int) :
    List MigratingAsset :=
  l.map (fun asset =>
    if asset.assetId = assetId then
      { asset with migratedValues := asset.migratedValues ++ [value] }
    else asset)

/-- The inner loop of migrateNotes over the migratable values of one asset,
two notes at a time: before each chunk the destroyed flag is read at the
current check index; if set the loop aborts, otherwise a transfer proof over
the chunk sum minus the fee is created, sent and recorded, and the sent
amount is appended to the migratedValues of the asset. -/
def migrateAssetPairs (destroyed : Nat → Bool) (assetId : Nat) (fee : Int) :
    List Int → Nat → MigrateFormValues → LoopResult
  | [], k, v => { values := v, snapshots := [], events := [], checkIndex := k, aborted := false }
  | [x], k, v =>
      if destroyed k then
        { values := v, snapshots := [], events := [], checkIndex := k, aborted := true }
      else
        let amount := [x].foldl (fun sum value => sum + value) 0 - fee
        let v1 := setMigratingAssets v (updateMigratingAssets v.migratingAssets.value assetId amount)
        { values := v1, snapshots := [v1]
          events := [MigrateEvent.createTransferProof assetId amount fee,
                     MigrateEvent.sendProof assetId amount fee,
                     MigrateEvent.addMigratingTx assetId amount fee]
          checkIndex := k + 1, aborted := false }
  | x :: y :: rest, k, v =>
      if destroyed k then
        { values := v, snapshots := [], events := [], checkIndex := k, aborted := true }
      else
        let amount := [x, y].foldl (fun sum value => sum + value) 0 - fee
        let v1 := setMigratingAssets v (updateMigratingAssets v.migratingAssets.value assetId amount)
        let r := migrateAssetPairs destroyed assetId fee rest (k + 1) v1
        { values := r.values, snapshots := v1 :: r.snapshots
          events := MigrateEvent.createTransferProof assetId amount fee ::
                    MigrateEvent.sendProof assetId amount fee ::
                    MigrateEvent.addMigratingTx assetId amount fee :: r.events
          checkIndex := r.checkIndex, aborted := r.aborted }

/-- The outer loop of migrateNotes over the migrating assets list read at
the start of the method. -/
def migrateAssetsLoop (destroyed : Nat → Bool) :
    List MigratingAsset → Nat → MigrateFormValues → LoopResult
  | [], k, v => { values := v, snapshots := [], events := [], checkIndex := k, aborted := false }
  | a :: rest, k, v =>
      let r := migrateAssetPairs destroyed a.assetId a.fee a.migratableValues k v
      if r.aborted then r
      else
        let r2 := migrateAssetsLoop destroyed rest r.checkIndex r.values
        { values := r2.values, snapshots := r.snapshots ++ r2.snapshots
          events := r.events ++ r2.events, checkIndex := r2.checkIndex
          aborted := r2.aborted }

/-- The result of migrateNotes: final values, snapshots and events. -/
structure NotesResult where
  values : MigrateFormValues
  snapshots : List MigrateFormValues
  events : List MigrateEvent
deriving Repr

/-- migrateNotes: set status MIGRATE, run the migration loop over the
migrating assets; when the loop ran to completion remove the
previous-generation user and set status DONE. -/
def migrateNotes (destroyed : Nat → Bool) (v : MigrateFormValues) : NotesResult :=
  let v0 := { v with status := MigrateStatus.MIGRATE }
  let r := migrateAssetsLoop destroyed v0.migratingAssets.value 0 v0
  if r.aborted then
    { values := r.values, snapshots := v0 :: r.snapshots, events := r.events }
  else
    let v1 := { r.values with status := MigrateStatus.DONE }
    { values := v1, snapshots := v0 :: r.snapshots ++ [v1]
      events := r.events ++ [MigrateEvent.removeUser] }

/-- The loop of validateValues: true when some asset, scanned in order, has
a current transfer fee exceeding its stored fee (the loop breaks at the
first one). -/
def validateAssets (getFee : Nat → Int) : List MigratingAsset → Bool
  | [] => false
  | asset :: rest =>
      if getFee asset.assetId > asset.fee then true else validateAssets getFee rest

/-- validateValues: attach the insufficient-fee error to the migrating
assets field when some asset has a current fee above its stored fee. -/
def validateValues (getFee : Nat → Int) (v : MigrateFormValues) : MigrateFormValues :=
  if validateAssets getFee v.migratingAssets.value then
    { v with migratingAssets := withError v.migratingAssets "Insufficient fee." }
  else v

/-- The value bag written by the first updateFormValues call of submit:
status VALIDATE and submit true with a cleared message. -/
def submitEntryValues (st : MigrateFormState) : MigrateFormValues :=
  { st.values with
    status := MigrateStatus.VALIDATE
    submit := clearMessage { st.values.submit with value := true } }

/-- submit: a duplicated call while processing returns at once; otherwise
the form goes to PROCESSING, status VALIDATE, the values are validated, and
either the form falls back to CONFIRM locked with no proof sent, or
migrateNotes runs and the form is locked. -/
def submit (getFee : Nat → Int) (destroyed : Nat → Bool) (st : MigrateFormState) :
    OpResult :=
  if st.formStatus = FormStatus.PROCESSING then
    { state := st, snapshots := [], events := [] }
  else
    let v0 := submitEntryValues st
    let validated := validateValues getFee v0
    if !(isValidForm validated) then
      let v1 := { validated with
                  status := MigrateStatus.CONFIRM
                  submit := clearMessage { validated.submit with value := false } }
      { state := { values := v1, formStatus := FormStatus.LOCKED }
        snapshots := [v0, v1], events := [] }
    else
      let r := migrateNotes destroyed v0
      { state := { values := r.values, formStatus := FormStatus.LOCKED }
        snapshots := v0 :: r.snapshots, events := r.events }

/-- The environment of syncBalance: the current transfer fee and the
spendable note values of the previous-generation user, per asset id. -/
structure SyncEnv where
  getFee : Nat → Int
  getSpendableNotes : Nat → List Int

/-- Insert a value into a descending list, after the existing entries that
are at least as large. -/
def insertDesc (x : Int) : List Int → List Int
  | [] => [x]
  | y :: ys => if y < x then x :: y :: ys else y :: insertDesc x ys

/-- The descending sort applied to the spendable note values (the source
sorts with a comparator putting larger values first). -/
def sortNotesDesc : List Int → List Int
  | [] => []
  | x :: xs => insertDesc x (sortNotesDesc xs)

/-- The per-asset record computed by syncBalance: sorted note values, the
current fee, the migratable values and the total fee over their chunk
count. -/
def syncAsset (env : SyncEnv) (assetId : Nat) : MigratingAsset :=
  let values := sortNotesDesc (env.getSpendableNotes assetId)
  let fee := env.getFee assetId
  let migratableValues := getMigratableValues values fee
  { assetId := assetId
    fee := fee
    totalFee := fee * (((migratableValues.length + 1) / 2 : Nat) : Int)
    values := values
    migratableValues := migratableValues
    migratedValues := [] }

/-- The migrating assets list computed by syncBalance from the current
entries. -/
def syncedAssets (env : SyncEnv) (st : MigrateFormState) : List MigratingAsset :=
  st.values.migratingAssets.value.map (fun a => syncAsset env a.assetId)

/-- syncBalance: go to PROCESSING with status SYNC, add the
previous-generation user and await its synchronisation, recompute the
migrating assets, remove the previous-generation user when nothing is
migratable, then lock the form with status CONFIRM. -/
def syncBalance (env : SyncEnv) (st : MigrateFormState) : OpResult :=
  let v0 := { st.values with status := MigrateStatus.SYNC }
  let migratingAssets := syncedAssets env st
  let evs :=
    if migratingAssets.any (fun a => !a.migratableValues.isEmpty) then
      [MigrateEvent.addUser, MigrateEvent.awaitUserSynchronised]
    else
      [MigrateEvent.addUser, MigrateEvent.awaitUserSynchronised, MigrateEvent.removeUser]
  let v1 := { setMigratingAssets v0 migratingAssets with status := MigrateStatus.CONFIRM }
  { state := { values := v1, formStatus := FormStatus.LOCKED }
    snapshots := [v0, v1], events := evs }

/-- The environment of onProviderStateChange: whether a provider is
connected, the wallet prompt text (built from an external signing message),
whether signing the message succeeds, the destroyed flag at the check after
signing, and the synchronisation environment. -/
structure ProviderEnv where
  hasProvider : Bool
  promptMessage : String
  signSuccess : Bool
  destroyedNow : Bool
  sync : SyncEnv

/-- onProviderStateChange (also run by init): only acts in status CONNECT;
clears the submit message, and when a provider is present prompts for a
signature; on success it runs syncBalance unless the form was destroyed, on
denial it attaches the signature-denied error. -/
def onProviderStateChange (env : ProviderEnv) (st : MigrateFormState) : OpResult :=
  if st.values.status ≠ MigrateStatus.CONNECT then
    { state := st, snapshots := [], events := [] }
  else
    let v1 := { st.values with submit := clearMessage { st.values.submit with value := false } }
    if !env.hasProvider then
      { state := { values := v1, formStatus := st.formStatus }, snapshots := [v1], events := [] }
    else
      let v2 := { v1 with submit := withWarning { v1.submit with value := true } env.promptMessage }
      if env.signSuccess then
        if !env.destroyedNow then
          let r := syncBalance env.sync { values := v2, formStatus := st.formStatus }
          { state := r.state, snapshots := v1 :: v2 :: r.snapshots, events := r.events }
        else
          { state := { values := v2, formStatus := st.formStatus }
            snapshots := [v1, v2], events := [] }
      else
        let v3 := { v2 with
                    submit := withError { v2.submit with value := false } "Message signature denied." }
        { state := { values := v3, formStatus := st.formStatus }
          snapshots := [v1, v2, v3], events := [] }

/-- The operations of the migration form named by the specification:
init/onProviderStateChange (which runs syncBalance) and submit (which runs
validateValues and migrateNotes). -/
inductive MigrateOp where
  | providerChange (env : ProviderEnv)
  | submitOp (getFee : Nat → Int) (destroyed : Nat → Bool)

/-- Run one operation on a form state. -/
def runOp : MigrateOp → MigrateFormState → OpResult
  | MigrateOp.providerChange env, st => onProviderStateChange env st
  | MigrateOp.submitOp gf d, st => submit gf d st

/-- The states of the migration form reachable from the initial state by the
operations. -/
inductive Reachable (assetIds : List Nat) : MigrateFormState → Prop where
  | init : Reachable assetIds (initialState assetIds)
  | step (st : MigrateFormState) (op : MigrateOp) :
      Reachable assetIds st → Reachable assetIds (runOp op st).state

/-- The sequence of status values observable while an operation runs: the
status at entry followed by the status of each emitted value snapshot. -/
def statusTrace (op : MigrateOp) (st : MigrateFormState) : List MigrateStatus :=
  st.values.status :: (runOp op st).snapshots.map (fun v => v.status)

/-- The forward order on migration statuses. -/
def statusLE (a b : MigrateStatus) : Prop := a.toNat ≤ b.toNat

instance : DecidableRel statusLE := fun a b =>
  inferInstanceAs (Decidable (a.toNat ≤ b.toNat))

/-! ## Claims about the Euler adapter, the progress view and the countdown -/

/-- Claim C6: for every choice of asset arguments, every auxData and every
inputValue, getExpectedOutput resolves to a one-element array whose single
element is the truncating integer quotient of inputValue * auxData by
10 ^ 18, independently of the asset arguments, and it makes no contract
call. -/
theorem claim_c6_getExpectedOutput (a b c d a2 b2 c2 d2 : AztecAsset)
    (auxData inputValue : Int) :
    getExpectedOutput a b c d auxData inputValue =
      ([Int.div (inputValue * auxData) (10 ^ 18)], []) ∧
    getExpectedOutput a b c d auxData inputValue =
      getExpectedOutput a2 b2 c2 d2 auxData inputValue :=
  ⟨rfl, rfl⟩

/-- Claim C7: every unimplemented optional adapter method throws an Error
with message Method not implemented. for every input, and never returns a
value. -/
theorem claim_c7_unimplemented :
    (∀ (n : Nat) (v : Int),
        getInteractionPresentValue n v = Except.error "Method not implemented." ∧
        ∀ r, getInteractionPresentValue n v ≠ Except.ok r) ∧
    (∀ n : Nat, getExpiration n = Except.error "Method not implemented." ∧
        ∀ r, getExpiration n ≠ Except.ok r) ∧
    (∀ n : Nat, hasFinalised n = Except.error "Method not implemented." ∧
        ∀ r, hasFinalised n ≠ Except.ok r) ∧
    (∀ n : Nat, getInteractionAPR n = Except.error "Method not implemented." ∧
        ∀ r, getInteractionAPR n ≠ Except.ok r) ∧
    (∀ (u : AztecAsset) (x v : Int),
        getTermAPR u x v = Except.error "Method not implemented." ∧
        ∀ r, getTermAPR u x v ≠ Except.ok r) ∧
    (∀ x : Int, getBorrowingFee x = Except.error "Method not implemented." ∧
        ∀ r, getBorrowingFee x ≠ Except.ok r) ∧
    (getCurrentCR () = Except.error "Method not implemented." ∧
        ∀ r, getCurrentCR () ≠ Except.ok r) ∧
    (∀ x : Int, getUserDebtAndCollateral x = Except.error "Method not implemented." ∧
        ∀ r, getUserDebtAndCollateral x ≠ Except.ok r) ∧
    (∀ x : Int, getCustomMaxPrice x = Except.error "Method not implemented." ∧
        ∀ r, getCustomMaxPrice x ≠ Except.ok r) := by
  refine ⟨?_, ?_, ?_, ?_, ?_, ?_, ?_, ?_, ?_⟩ <;>
    simp [getInteractionPresentValue, getExpiration, hasFinalised, getInteractionAPR,
      getTermAPR, getBorrowingFee, getCurrentCR, getUserDebtAndCollateral,
      getCustomMaxPrice]

/-- Claim C8: getAuxData and getUnderlyingAmount are well defined exactly on
the fixed id domain of the minTokenOut table: for an output (resp. share)
asset id among 0, 1, 2, 5, 6, 7 the looked-up bound is a defined bigint
equal to 99 * 10 ^ 16 or 96 * 10 ^ 16 and both methods succeed; for any
other id the lookup is undefined, getAuxData resolves to an array holding no
bigint and the amount computation of getUnderlyingAmount fails. -/
theorem claim_c8_minTokenOut_domain (a b d share : AztecAsset) (env : EthEnv)
    (amount : Int) :
    (share.id ∈ ([0, 1, 2, 5, 6, 7] : List Nat) →
      ∃ m, minTokenOut share.id = some m ∧
        (m = 99 * 10 ^ 16 ∨ m = 96 * 10 ^ 16) ∧
        getAuxData a b share d = [some m] ∧
        ∃ u, getUnderlyingAmount env share amount = Except.ok u) ∧
    (share.id ∉ ([0, 1, 2, 5, 6, 7] : List Nat) →
      minTokenOut share.id = none ∧
      getAuxData a b share d = [none] ∧
      getUnderlyingAmount env share amount = Except.error "TypeError") := by
  obtain ⟨sid, saddr⟩ := share
  constructor
  · intro h
    simp only [List.mem_cons, List.not_mem_nil, or_false] at h
    rcases h with h | h | h | h | h | h <;> subst h <;>
      simp [minTokenOut, getAuxData, getUnderlyingAmount]
  · intro h
    simp only [List.mem_cons, List.not_mem_nil, or_false, not_or] at h
    obtain ⟨h0, h1, h2, h5, h6, h7⟩ := h
    have hm : minTokenOut sid = none := by
      simp [minTokenOut, h0, h1, h2, h5, h6, h7]
    refine ⟨hm, ?_, ?_⟩
    · simp [getAuxData, hm]
    · simp [getUnderlyingAmount, hm]

/-- The failed flag of the progress template holds exactly when the message
type is ERROR and the message is present and non-empty. -/
theorem progressTemplateFailed_iff (message : Option String)
    (messageType : Option MessageType) :
    progressTemplateFailed message messageType = true ↔
      messageType = some MessageType.ERROR ∧ ∃ s, message = some s ∧ s ≠ "" := by
  cases message with
  | none => simp [progressTemplateFailed]
  | some s => simp [progressTemplateFailed, and_comm]

/-- Claim C9: for every rendered step, the four flags handed to TxProgress
are characterised by the step status relative to the current status and the
presence of an error message, and exactly one of them is set. -/
theorem claim_c9_progress_flags (currentStatus status : Int)
    (message : Option String) (messageType : Option MessageType) :
    ((createProgress currentStatus (progressTemplateFailed message messageType) status).done
        = true ↔ status < currentStatus) ∧
    ((createProgress currentStatus (progressTemplateFailed message messageType) status).failed
        = true ↔ status = currentStatus ∧ messageType = some MessageType.ERROR ∧
            ∃ s, message = some s ∧ s ≠ "") ∧
    ((createProgress currentStatus (progressTemplateFailed message messageType) status).isLoading
        = true ↔ status = currentStatus ∧
            ¬(messageType = some MessageType.ERROR ∧ ∃ s, message = some s ∧ s ≠ "")) ∧
    ((createProgress currentStatus (progressTemplateFailed message messageType) status).inactive
        = true ↔ currentStatus < status) ∧
    (createProgress currentStatus (progressTemplateFailed message messageType) status).done.toNat +
      (createProgress currentStatus (progressTemplateFailed message messageType) status).isLoading.toNat +
      (createProgress currentStatus (progressTemplateFailed message messageType) status).failed.toNat +
      (createProgress currentStatus (progressTemplateFailed message messageType) status).inactive.toNat
      = 1 := by
  have hiff := progressTemplateFailed_iff message messageType
  obtain h | h | h := lt_trichotomy status currentStatus
  · cases hf : progressTemplateFailed message messageType <;> rw [hf] at hiff <;>
      simp [createProgress, h, h.ne, lt_asymm h, ← hiff]
  · subst h
    cases hf : progressTemplateFailed message messageType <;> rw [hf] at hiff <;>
      simp [createProgress, ← hiff]
  · cases hf : progressTemplateFailed message messageType <;> rw [hf] at hiff <;>
      simp [createProgress, h, h.ne', lt_asymm h, ← hiff]

/-- Claim C10: useCountDownData fills slots from the clamped gas fraction of
the matching bridge status and defaults to zero taken slots out of the
default batch size when no status matches; with positive gas thresholds the
taken slots always lie between 0 and the total slots. -/
theorem claim_c10_countdown (rp : RollupProviderStatus) (bridgeCallData : Option Int) :
    ∃ data, useCountDownData (some rp) bridgeCallData = some data ∧
      (∀ s, rp.bridgeStatus.find?
            (fun x => decide (some x.bridgeCallData = bridgeCallData)) = some s →
          data.totalSlots = s.numTxs ∧
          data.takenSlots =
            Int.floor ((s.numTxs : ℚ) *
              min 1 (max 0 ((s.gasAccrued : ℚ) / (s.gasThreshold : ℚ))))) ∧
      (rp.bridgeStatus.find?
            (fun x => decide (some x.bridgeCallData = bridgeCallData)) = none →
          data.totalSlots = rp.runtimeConfig.defaultDeFiBatchSize ∧
          data.takenSlots = 0) ∧
      ((∀ s ∈ rp.bridgeStatus, 0 < s.gasThreshold) →
          0 ≤ data.takenSlots ∧ data.takenSlots ≤ (data.totalSlots : Int)) := by
  cases hf : rp.bridgeStatus.find?
      (fun x => decide (some x.bridgeCallData = bridgeCallData)) with
  | none =>
      have hz : Int.floor ((rp.runtimeConfig.defaultDeFiBatchSize : ℚ) *
          min 1 (max 0 (0 : ℚ))) = 0 := by norm_num
      refine ⟨{ totalSlots := rp.runtimeConfig.defaultDeFiBatchSize,
                takenSlots := Int.floor ((rp.runtimeConfig.defaultDeFiBatchSize : ℚ) *
                  min 1 (max 0 (0 : ℚ))) }, ?_, ?_, ?_, ?_⟩
      · simp [useCountDownData, hf]
      · intro s hs; cases hs
      · intro _; exact ⟨rfl, hz⟩
      · intro _
        refine ⟨le_of_eq hz.symm, ?_⟩
        rw [hz]
        positivity
  | some s =>
      refine ⟨{ totalSlots := s.numTxs,
                takenSlots := Int.floor ((s.numTxs : ℚ) *
                  min 1 (max 0 ((s.gasAccrued : ℚ) / (s.gasThreshold : ℚ)))) },
              ?_, ?_, ?_, ?_⟩
      · simp [useCountDownData, hf]
      · intro t ht
        cases ht
        exact ⟨rfl, rfl⟩
      · intro hn; cases hn
      · intro _
        have hc0 : (0 : ℚ) ≤ min 1 (max 0 ((s.gasAccrued : ℚ) / (s.gasThreshold : ℚ))) :=
          le_min (by norm_num) (le_max_left 0 _)
        have hc1 : min 1 (max 0 ((s.gasAccrued : ℚ) / (s.gasThreshold : ℚ))) ≤ 1 :=
          min_le_left _ _
        have hx0 : (0 : ℚ) ≤ (s.numTxs : ℚ) *
            min 1 (max 0 ((s.gasAccrued : ℚ) / (s.gasThreshold : ℚ))) :=
          mul_nonneg (Nat.cast_nonneg _) hc0
        have hx1 : (s.numTxs : ℚ) *
            min 1 (max 0 ((s.gasAccrued : ℚ) / (s.gasThreshold : ℚ))) ≤ (s.numTxs : ℚ) :=
          mul_le_of_le_one_right (Nat.cast_nonneg _) hc1
        constructor
        · exact Int.floor_nonneg.mpr hx0
        · calc Int.floor ((s.numTxs : ℚ) *
                min 1 (max 0 ((s.gasAccrued : ℚ) / (s.gasThreshold : ℚ))))
              ≤ Int.floor ((s.numTxs : ℚ)) := Int.floor_le_floor hx1
          _ = (s.numTxs : Int) := Int.floor_natCast _

/-- A concrete rollup provider status with one bridge entry, used to witness
the countdown claim. -/
def rpW : RollupProviderStatus :=
  { bridgeStatus := [{ bridgeCallData := 5, numTxs := 10, gasAccrued := 3, gasThreshold := 6 }]
    runtimeConfig := { defaultDeFiBatchSize := 8 } }

/-- Witness for claim C10 at a concrete provider status with a positive gas
threshold. -/
theorem claim_c10_countdown_witness :
    ∃ data, useCountDownData (some rpW) (some 5) = some data ∧
      0 ≤ data.takenSlots ∧ data.takenSlots ≤ (data.totalSlots : Int) := by
  obtain ⟨data, h1, h2, h3, h4⟩ := claim_c10_countdown rpW (some 5)
  exact ⟨data, h1, h4 (by decide)⟩

/-! ## Trace anatomy of the migration loop -/

/-- Two-step list induction matching the chunked loops of the migration
form. -/
theorem twoStepInduction {α : Type} {motive : List α → Prop} (h0 : motive [])
    (h1 : ∀ x, motive [x])
    (h2 : ∀ x y rest, motive rest → motive (x :: y :: rest)) :
    ∀ l : List α, motive l
  | [] => h0
  | [x] => h1 x
  | x :: y :: rest => h2 x y rest (twoStepInduction h0 h1 h2 rest)

/-- The number of chunks the migration loop forms from a value list. -/
def pairCount (vs : List Int) : Nat := (vs.length + 1) / 2

/-- The amount sent for each chunk of migratable values: the chunk sum minus
the fee. -/
def pairAmounts (fee : Int) : List Int → List Int
  | [] => []
  | [x] => [[x].foldl (fun sum value => sum + value) 0 - fee]
  | x :: y :: rest =>
      ([x, y].foldl (fun sum value => sum + value) 0 - fee) :: pairAmounts fee rest

/-- The external calls made for a list of sent amounts: for each amount a
proof is created, sent, and recorded in the database. -/
def proofEvents (assetId : Nat) (fee : Int) : List Int → List MigrateEvent
  | [] => []
  | amount :: rest =>
      MigrateEvent.createTransferProof assetId amount fee ::
      MigrateEvent.sendProof assetId amount fee ::
      MigrateEvent.addMigratingTx assetId amount fee :: proofEvents assetId fee rest

/-- Whether an event is a proof submission. -/
def isSendProof : MigrateEvent → Bool
  | MigrateEvent.sendProof _ _ _ => true
  | _ => false

/-- Whether an event is a proof submission for the given asset. -/
def isSendProofOf (assetId : Nat) : MigrateEvent → Bool
  | MigrateEvent.sendProof aid _ _ => decide (aid = assetId)
  | _ => false

/-- Whether an event is a proof creation. -/
def isCreateProof : MigrateEvent → Bool
  | MigrateEvent.createTransferProof _ _ _ => true
  | _ => false

/-- The number of proof submissions in a trace. -/
def sendCountAll (evs : List MigrateEvent) : Nat := (evs.filter isSendProof).length

/-- The number of proof submissions for one asset in a trace. -/
def sendCount (assetId : Nat) (evs : List MigrateEvent) : Nat :=
  (evs.filter (isSendProofOf assetId)).length

/-- The number of proof creations in a trace. -/
def createCountAll (evs : List MigrateEvent) : Nat := (evs.filter isCreateProof).length

/-- The total number of chunks the migration loop would process over an
asset list. -/
def totalPairs (l : List MigratingAsset) : Nat :=
  (l.map (fun a => pairCount a.migratableValues)).sum

/-- The cumulative effect of t completed chunks of one asset on the value
bag: each asset entry with the processed id receives the first t sent
amounts. -/
def applyMigration (assetId : Nat) (fee : Int) (vs : List Int) (t : Nat)
    (v : MigrateFormValues) : MigrateFormValues :=
  setMigratingAssets v (v.migratingAssets.value.map (fun a =>
    if a.assetId = assetId then
      { a with migratedValues := a.migratedValues ++ (pairAmounts fee vs).take t }
    else a))

theorem pairAmounts_length (fee : Int) :
    ∀ vs : List Int, (pairAmounts fee vs).length = pairCount vs := by
  refine twoStepInduction rfl (fun x => by simp [pairAmounts, pairCount]) ?_
  intro x y rest ih
  simp only [pairAmounts, List.length_cons, ih, pairCount, List.length]
  omega

theorem proofEvents_sendCountAll (assetId : Nat) (fee : Int) :
    ∀ amts : List Int, sendCountAll (proofEvents assetId fee amts) = amts.length := by
  intro amts
  induction amts with
  | nil => rfl
  | cons a rest ih =>
      unfold sendCountAll at ih ⊢
      simp [proofEvents, List.filter_cons, isSendProof, ih]

theorem proofEvents_sendCount_self (assetId : Nat) (fee : Int) :
    ∀ amts : List Int, sendCount assetId (proofEvents assetId fee amts) = amts.length := by
  intro amts
  induction amts with
  | nil => rfl
  | cons a rest ih =>
      unfold sendCount at ih ⊢
      simp [proofEvents, List.filter_cons, isSendProofOf, ih]

theorem proofEvents_sendCount_other (assetId other : Nat) (fee : Int)
    (h : other ≠ assetId) :
    ∀ amts : List Int, sendCount other (proofEvents assetId fee amts) = 0 := by
  intro amts
  induction amts with
  | nil => rfl
  | cons a rest ih =>
      unfold sendCount at ih ⊢
      simp [proofEvents, List.filter_cons, isSendProofOf, Ne.symm h, ih]

theorem proofEvents_no_removeUser (assetId : Nat) (fee : Int) :
    ∀ amts : List Int, MigrateEvent.removeUser ∉ proofEvents assetId fee amts := by
  intro amts
  induction amts with
  | nil => simp [proofEvents]
  | cons a rest ih => simp [proofEvents, ih]

theorem sendCountAll_append (e1 e2 : List MigrateEvent) :
    sendCountAll (e1 ++ e2) = sendCountAll e1 + sendCountAll e2 := by
  simp [sendCountAll, List.filter_append]

theorem sendCount_append (assetId : Nat) (e1 e2 : List MigrateEvent) :
    sendCount assetId (e1 ++ e2) = sendCount assetId e1 + sendCount assetId e2 := by
  simp [sendCount, List.filter_append]

theorem applyMigration_status (assetId : Nat) (fee : Int) (vs : List Int) (t : Nat)
    (v : MigrateFormValues) : (applyMigration assetId fee vs t v).status = v.status := rfl

theorem applyMigration_submitField (assetId : Nat) (fee : Int) (vs : List Int) (t : Nat)
    (v : MigrateFormValues) : (applyMigration assetId fee vs t v).submit = v.submit := rfl

theorem applyMigration_zero (assetId : Nat) (fee : Int) (vs : List Int)
    (v : MigrateFormValues) : applyMigration assetId fee vs 0 v = v := by
  unfold applyMigration setMigratingAssets
  have h : v.migratingAssets.value.map (fun a =>
      if a.assetId = assetId then
        { a with migratedValues := a.migratedValues ++ (pairAmounts fee vs).take 0 }
      else a) = v.migratingAssets.value := by
    rw [List.map_congr_left (g := id) ?_, List.map_id]
    intro a ha
    by_cases hc : a.assetId = assetId
    · rw [if_pos hc]; simp
    · rw [if_neg hc]; rfl
  rw [h]

theorem setMigratingAssets_value (v : MigrateFormValues) (l : List MigratingAsset) :
    (setMigratingAssets v l).migratingAssets.value = l := rfl

theorem setMigratingAssets_comp (v : MigrateFormValues) (l1 l2 : List MigratingAsset) :
    setMigratingAssets (setMigratingAssets v l1) l2 = setMigratingAssets v l2 := rfl

theorem applyMigration_one_cons (assetId : Nat) (fee : Int) (x y : Int) (rest : List Int)
    (v : MigrateFormValues) :
    setMigratingAssets v (updateMigratingAssets v.migratingAssets.value assetId
        ([x, y].foldl (fun sum value => sum + value) 0 - fee)) =
      applyMigration assetId fee (x :: y :: rest) 1 v := rfl

theorem applyMigration_one_single (assetId : Nat) (fee : Int) (x : Int)
    (v : MigrateFormValues) :
    setMigratingAssets v (updateMigratingAssets v.migratingAssets.value assetId
        ([x].foldl (fun sum value => sum + value) 0 - fee)) =
      applyMigration assetId fee [x] 1 v := rfl

theorem applyMigration_comp (assetId : Nat) (fee : Int) (x y : Int) (rest : List Int)
    (t : Nat) (v : MigrateFormValues) :
    applyMigration assetId fee rest t
        (setMigratingAssets v (updateMigratingAssets v.migratingAssets.value assetId
          ([x, y].foldl (fun sum value => sum + value) 0 - fee))) =
      applyMigration assetId fee (x :: y :: rest) (t + 1) v := by
  unfold applyMigration
  rw [setMigratingAssets_value, setMigratingAssets_comp]
  unfold updateMigratingAssets
  rw [List.map_map]
  congr 1
  apply List.map_congr_left
  intro a ha
  by_cases hc : a.assetId = assetId
  · simp only [Function.comp, hc, if_pos, ite_true]
    simp [pairAmounts, List.take_succ_cons, List.append_assoc]
  · simp only [Function.comp]
    rw [if_neg hc, if_neg hc, if_neg hc]

theorem migrateAssetPairs_spec (d : Nat → Bool) (assetId : Nat) (fee : Int) :
    ∀ (vs : List Int) (k : Nat) (v : MigrateFormValues),
      ∃ t, t ≤ pairCount vs ∧
        (migrateAssetPairs d assetId fee vs k v).values = applyMigration assetId fee vs t v ∧
        (migrateAssetPairs d assetId fee vs k v).snapshots =
          (List.range t).map (fun i => applyMigration assetId fee vs (i + 1) v) ∧
        (migrateAssetPairs d assetId fee vs k v).events =
          proofEvents assetId fee ((pairAmounts fee vs).take t) ∧
        (migrateAssetPairs d assetId fee vs k v).checkIndex = k + t ∧
        (∀ i, i < t → d (k + i) = false) ∧
        ((migrateAssetPairs d assetId fee vs k v).aborted = false → t = pairCount vs) ∧
        ((migrateAssetPairs d assetId fee vs k v).aborted = true →
          d (k + t) = true ∧ t < pairCount vs) := by
  refine twoStepInduction ?_ ?_ ?_
  · intro k v
    refine ⟨0, Nat.zero_le _, ?_, ?_, ?_, ?_, ?_, ?_, ?_⟩ <;>
      simp [migrateAssetPairs, applyMigration_zero, proofEvents, pairAmounts, pairCount]
  · intro x k v
    by_cases hd : d k
    · refine ⟨0, Nat.zero_le _, ?_, ?_, ?_, ?_, ?_, ?_, ?_⟩ <;>
        simp [migrateAssetPairs, hd, applyMigration_zero, proofEvents, pairAmounts, pairCount]
    · refine ⟨1, by simp [pairCount], ?_, ?_, ?_, ?_, ?_, ?_, ?_⟩
      · simp only [migrateAssetPairs, hd, Bool.false_eq_true, if_neg, ite_false]
        exact applyMigration_one_single assetId fee x v
      · simp only [migrateAssetPairs, hd, Bool.false_eq_true, if_neg, ite_false]
        rw [show List.range 1 = [0] from rfl, List.map_cons, List.map_nil,
          applyMigration_one_single assetId fee x v]
      · simp [migrateAssetPairs, hd, pairAmounts, proofEvents]
      · simp [migrateAssetPairs, hd]
      · intro i hi
        have : i = 0 := by omega
        subst this
        simpa using hd
      · intro _
        simp [pairCount]
      · intro hab
        simp [migrateAssetPairs, hd] at hab
  · intro x y rest ih k v
    by_cases hd : d k
    · refine ⟨0, Nat.zero_le _, ?_, ?_, ?_, ?_, ?_, ?_, ?_⟩ <;>
        simp [migrateAssetPairs, hd, applyMigration_zero, proofEvents, pairAmounts, pairCount] <;>
        omega
    · obtain ⟨t, ht, hval, hsnap, hev, hidx, hchk, hab0, hab1⟩ :=
        ih (k + 1) (setMigratingAssets v (updateMigratingAssets v.migratingAssets.value assetId
          ([x, y].foldl (fun sum value => sum + value) 0 - fee)))
      refine ⟨t + 1, ?_, ?_, ?_, ?_, ?_, ?_, ?_, ?_⟩
      · simp only [pairCount, List.length_cons] at ht ⊢
        omega
      · simp only [migrateAssetPairs, hd, Bool.false_eq_true, if_neg, ite_false]
        rw [hval, applyMigration_comp]
      · simp only [migrateAssetPairs, hd, Bool.false_eq_true, if_neg, ite_false]
        rw [hsnap, List.range_succ_eq_map, List.map_cons, List.map_map]
        congr 1
        apply List.map_congr_left
        intro i hi
        simp only [Function.comp]
        exact applyMigration_comp assetId fee x y rest (i + 1) v
      · simp only [migrateAssetPairs, hd, Bool.false_eq_true, if_neg, ite_false]
        rw [hev]
        simp [pairAmounts, proofEvents, List.take_succ_cons]
      · simp only [migrateAssetPairs, hd, Bool.false_eq_true, if_neg, ite_false]
        rw [hidx]
        omega
      · intro i hi
        cases i with
        | zero => simpa using hd
        | succ j =>
            have hj : j < t := by omega
            have := hchk j hj
            have harith : k + (j + 1) = k + 1 + j := by omega
            rw [harith]
            exact this
      · intro hab
        simp only [migrateAssetPairs, hd, Bool.false_eq_true, if_neg, ite_false] at hab
        have := hab0 hab
        simp only [pairCount, List.length_cons] at this ⊢
        omega
      · intro hab
        simp only [migrateAssetPairs, hd, Bool.false_eq_true, if_neg, ite_false] at hab
        obtain ⟨hd2, hlt⟩ := hab1 hab
        constructor
        · have harith : k + (t + 1) = k + 1 + t := by omega
          rw [harith]
          exact hd2
        · simp only [pairCount, List.length_cons] at hlt ⊢
          omega

theorem pairCount_le_totalPairs (a : MigratingAsset) (rest : List MigratingAsset) :
    pairCount a.migratableValues ≤ totalPairs (a :: rest) := by
  simp [totalPairs]

theorem totalPairs_cons (a : MigratingAsset) (rest : List MigratingAsset) :
    totalPairs (a :: rest) = pairCount a.migratableValues + totalPairs rest := by
  simp [totalPairs]

theorem migrateAssetsLoop_spec (d : Nat → Bool) :
    ∀ (l : List MigratingAsset) (k : Nat) (v : MigrateFormValues),
      ∃ T, (migrateAssetsLoop d l k v).checkIndex = k + T ∧
        T ≤ totalPairs l ∧
        (∀ i, i < T → d (k + i) = false) ∧
        ((migrateAssetsLoop d l k v).aborted = false → T = totalPairs l) ∧
        ((migrateAssetsLoop d l k v).aborted = true → d (k + T) = true ∧ T < totalPairs l) ∧
        sendCountAll (migrateAssetsLoop d l k v).events = T ∧
        MigrateEvent.removeUser ∉ (migrateAssetsLoop d l k v).events ∧
        (migrateAssetsLoop d l k v).values.status = v.status ∧
        (∀ w ∈ (migrateAssetsLoop d l k v).snapshots, w.status = v.status) := by
  intro l
  induction l with
  | nil =>
      intro k v
      refine ⟨0, ?_, ?_, ?_, ?_, ?_, ?_, ?_, ?_, ?_⟩ <;>
        simp [migrateAssetsLoop, totalPairs, sendCountAll]
  | cons a rest ih =>
      intro k v
      obtain ⟨t, ht, hval, hsnap, hev, hidx, hchk, hab0, hab1⟩ :=
        migrateAssetPairs_spec d a.assetId a.fee a.migratableValues k v
      have hsendr : sendCountAll (migrateAssetPairs d a.assetId a.fee a.migratableValues k v).events = t := by
        rw [hev, proofEvents_sendCountAll, List.length_take, pairAmounts_length]
        omega
      have hremr : MigrateEvent.removeUser ∉
          (migrateAssetPairs d a.assetId a.fee a.migratableValues k v).events := by
        rw [hev]
        exact proofEvents_no_removeUser a.assetId a.fee _
      have hstatr : (migrateAssetPairs d a.assetId a.fee a.migratableValues k v).values.status
          = v.status := by
        rw [hval]
        exact applyMigration_status _ _ _ _ _
      have hsnapstatr : ∀ w ∈ (migrateAssetPairs d a.assetId a.fee a.migratableValues k v).snapshots,
          w.status = v.status := by
        intro w hw
        rw [hsnap] at hw
        obtain ⟨i, hi, hwi⟩ := List.mem_map.mp hw
        rw [← hwi]
        exact applyMigration_status _ _ _ _ _
      by_cases hab : (migrateAssetPairs d a.assetId a.fee a.migratableValues k v).aborted
      · obtain ⟨hd2, hlt⟩ := hab1 hab
        refine ⟨t, ?_, ?_, ?_, ?_, ?_, ?_, ?_, ?_, ?_⟩
        · simp only [migrateAssetsLoop, hab, ite_true]
          exact hidx
        · exact le_trans ht (pairCount_le_totalPairs a rest)
        · exact hchk
        · intro h
          simp only [migrateAssetsLoop, hab, ite_true] at h
          exact absurd h (by simp [hab])
        · intro _
          exact ⟨hd2, lt_of_lt_of_le hlt (pairCount_le_totalPairs a rest)⟩
        · simp only [migrateAssetsLoop, hab, ite_true]
          exact hsendr
        · simp only [migrateAssetsLoop, hab, ite_true]
          exact hremr
        · simp only [migrateAssetsLoop, hab, ite_true]
          exact hstatr
        · simp only [migrateAssetsLoop, hab, ite_true]
          exact hsnapstatr
      · have hnab : (migrateAssetPairs d a.assetId a.fee a.migratableValues k v).aborted = false := by
          simpa using hab
        have htt : t = pairCount a.migratableValues := hab0 hnab
        obtain ⟨T2, h2idx, h2le, h2chk, h2ab0, h2ab1, h2send, h2rem, h2stat, h2snap⟩ :=
          ih (migrateAssetPairs d a.assetId a.fee a.migratableValues k v).checkIndex
            (migrateAssetPairs d a.assetId a.fee a.migratableValues k v).values
        refine ⟨t + T2, ?_, ?_, ?_, ?_, ?_, ?_, ?_, ?_, ?_⟩
        · simp only [migrateAssetsLoop, hnab, Bool.false_eq_true, ite_false]
          rw [h2idx, hidx]
          omega
        · rw [totalPairs_cons]
          omega
        · intro i hi
          by_cases hit : i < t
          · exact hchk i hit
          · have hj : i - t < T2 := by omega
            have := h2chk (i - t) hj
            rw [hidx] at this
            have harith : k + i = k + t + (i - t) := by omega
            rw [harith]
            exact this
        · intro h
          simp only [migrateAssetsLoop, hnab, Bool.false_eq_true, ite_false] at h
          have := h2ab0 h
          rw [totalPairs_cons]
          omega
        · intro h
          simp only [migrateAssetsLoop, hnab, Bool.false_eq_true, ite_false] at h
          obtain ⟨hd2, hlt2⟩ := h2ab1 h
          rw [hidx] at hd2
          constructor
          · have harith : k + (t + T2) = k + t + T2 := by omega
            rw [harith]
            exact hd2
          · rw [totalPairs_cons]
            omega
        · simp only [migrateAssetsLoop, hnab, Bool.false_eq_true, ite_false]
          rw [sendCountAll_append, hsendr, h2send]
        · simp only [migrateAssetsLoop, hnab, Bool.false_eq_true, ite_false]
          rw [List.mem_append]
          rintro (h | h)
          · exact hremr h
          · exact h2rem h
        · simp only [migrateAssetsLoop, hnab, Bool.false_eq_true, ite_false]
          rw [h2stat]
          exact hstatr
        · simp only [migrateAssetsLoop, hnab, Bool.false_eq_true, ite_false]
          intro w hw
          rw [List.mem_append] at hw
          rcases hw with hw | hw
          · exact hsnapstatr w hw
          · rw [h2snap w hw]
            exact hstatr

theorem proofEvents_createCountAll (assetId : Nat) (fee : Int) :
    ∀ amts : List Int, createCountAll (proofEvents assetId fee amts) = amts.length := by
  intro amts
  induction amts with
  | nil => rfl
  | cons a rest ih =>
      unfold createCountAll at ih ⊢
      simp [proofEvents, List.filter_cons, isCreateProof, ih]

theorem createCountAll_append (e1 e2 : List MigrateEvent) :
    createCountAll (e1 ++ e2) = createCountAll e1 + createCountAll e2 := by
  simp [createCountAll, List.filter_append]

theorem migrateAssetsLoop_createCountAll (d : Nat → Bool) :
    ∀ (l : List MigratingAsset) (k : Nat) (v : MigrateFormValues),
      createCountAll (migrateAssetsLoop d l k v).events =
        sendCountAll (migrateAssetsLoop d l k v).events := by
  intro l
  induction l with
  | nil => intro k v; rfl
  | cons a rest ih =>
      intro k v
      obtain ⟨t, ht, hval, hsnap, hev, hidx, hchk, hab0, hab1⟩ :=
        migrateAssetPairs_spec d a.assetId a.fee a.migratableValues k v
      by_cases hab : (migrateAssetPairs d a.assetId a.fee a.migratableValues k v).aborted
      · simp only [migrateAssetsLoop, hab, ite_true]
        rw [hev, proofEvents_createCountAll, proofEvents_sendCountAll]
      · have hnab : (migrateAssetPairs d a.assetId a.fee a.migratableValues k v).aborted = false := by
          simpa using hab
        simp only [migrateAssetsLoop, hnab, Bool.false_eq_true, ite_false]
        rw [createCountAll_append, sendCountAll_append, hev,
          proofEvents_createCountAll, proofEvents_sendCountAll, ih]

/-- Claim C4: the only cancellation point of the migration loop is the
destroyed-flag check before each chunk: when every check below the chunk
count reads false the loop completes, removes the previous-generation user
and reaches DONE; when the flag reads true at some check index below the
chunk count, the loop returns there, no further proof is created or sent
(at most kx chunks were submitted), the previous-generation user is not
removed and the status never becomes DONE. -/
theorem claim_c4_destroyed_cancellation (d : Nat → Bool) (v : MigrateFormValues) :
    ((∀ k, k < totalPairs v.migratingAssets.value → d k = false) →
        (migrateNotes d v).values.status = MigrateStatus.DONE ∧
        MigrateEvent.removeUser ∈ (migrateNotes d v).events) ∧
    (∀ kx, d kx = true → kx < totalPairs v.migratingAssets.value →
        MigrateEvent.removeUser ∉ (migrateNotes d v).events ∧
        (migrateNotes d v).values.status ≠ MigrateStatus.DONE ∧
        (∀ w ∈ (migrateNotes d v).snapshots, w.status ≠ MigrateStatus.DONE) ∧
        sendCountAll (migrateNotes d v).events ≤ kx ∧
        createCountAll (migrateNotes d v).events ≤ kx) := by
  obtain ⟨T, hidx, hle, hchk, hab0, hab1, hsend, hrem, hstat, hsnap⟩ :=
    migrateAssetsLoop_spec d v.migratingAssets.value 0
      { v with status := MigrateStatus.MIGRATE }
  have hcreate := migrateAssetsLoop_createCountAll d v.migratingAssets.value 0
      { v with status := MigrateStatus.MIGRATE }
  constructor
  · intro hall
    have hnab : (migrateAssetsLoop d v.migratingAssets.value 0
        { v with status := MigrateStatus.MIGRATE }).aborted = false := by
      cases habv : (migrateAssetsLoop d v.migratingAssets.value 0
          { v with status := MigrateStatus.MIGRATE }).aborted
      · rfl
      · obtain ⟨hdT, hTlt⟩ := hab1 habv
        have := hall T hTlt
        rw [Nat.zero_add] at hdT
        rw [this] at hdT
        cases hdT
    constructor
    · simp only [migrateNotes, hnab, Bool.false_eq_true, ite_false]
    · simp only [migrateNotes, hnab, Bool.false_eq_true, ite_false]
      simp
  · intro kx hkx hklt
    have habv : (migrateAssetsLoop d v.migratingAssets.value 0
        { v with status := MigrateStatus.MIGRATE }).aborted = true := by
      cases habv : (migrateAssetsLoop d v.migratingAssets.value 0
          { v with status := MigrateStatus.MIGRATE }).aborted
      · have hT := hab0 habv
        have hck := hchk kx (by omega)
        rw [Nat.zero_add] at hck
        rw [hkx] at hck
        cases hck
      · rfl
    have hTkx : T ≤ kx := by
      by_contra hlt
      push_neg at hlt
      have hck := hchk kx hlt
      rw [Nat.zero_add] at hck
      rw [hkx] at hck
      cases hck
    refine ⟨?_, ?_, ?_, ?_, ?_⟩
    · simp only [migrateNotes, habv, ite_true]
      exact hrem
    · simp only [migrateNotes, habv, ite_true]
      rw [hstat]
      simp
    · simp only [migrateNotes, habv, ite_true]
      intro w hw
      rw [List.mem_cons] at hw
      rcases hw with hw | hw
      · rw [hw]
        simp
      · rw [hsnap w hw]
        simp
    · simp only [migrateNotes, habv, ite_true]
      omega
    · simp only [migrateNotes, habv, ite_true]
      omega

/-- A concrete migration form value bag with one asset holding one
migratable chunk, used as a concrete input for the migration claims. -/
def vW : MigrateFormValues :=
  { migratingAssets :=
      { value := [{ assetId := 0, fee := 2, totalFee := 2, values := [10, 10],
                    migratableValues := [10, 10], migratedValues := [] }]
        message := none, messageType := none }
    status := MigrateStatus.CONFIRM
    submit := { value := true, message := none, messageType := none } }

/-- Witness for claim C4: with the destroyed flag set from the start, the
migration loop over one migratable chunk sends nothing, removes no user and
never reaches DONE. -/
theorem claim_c4_destroyed_cancellation_witness :
    MigrateEvent.removeUser ∉ (migrateNotes (fun _ => true) vW).events ∧
    (migrateNotes (fun _ => true) vW).values.status ≠ MigrateStatus.DONE ∧
    (∀ w ∈ (migrateNotes (fun _ => true) vW).snapshots, w.status ≠ MigrateStatus.DONE) ∧
    sendCountAll (migrateNotes (fun _ => true) vW).events ≤ 0 ∧
    createCountAll (migrateNotes (fun _ => true) vW).events ≤ 0 :=
  (claim_c4_destroyed_cancellation (fun _ => true) vW).2 0 rfl (by decide)

theorem applyMigration_getElem (assetId : Nat) (fee : Int) (vs : List Int) (t : Nat)
    (v : MigrateFormValues) (j : Nat) :
    (applyMigration assetId fee vs t v).migratingAssets.value[j]? =
      (v.migratingAssets.value[j]?).map (fun a =>
        if a.assetId = assetId then
          { a with migratedValues := a.migratedValues ++ (pairAmounts fee vs).take t }
        else a) := by
  unfold applyMigration
  rw [setMigratingAssets_value, List.getElem?_map]

theorem applyMigration_length (assetId : Nat) (fee : Int) (vs : List Int) (t : Nat)
    (v : MigrateFormValues) :
    (applyMigration assetId fee vs t v).migratingAssets.value.length =
      v.migratingAssets.value.length := by
  unfold applyMigration
  rw [setMigratingAssets_value, List.length_map]

theorem sendCount_removeUser (assetId : Nat) :
    sendCount assetId [MigrateEvent.removeUser] = 0 := rfl

theorem migrateAssetsLoop_counts (d : Nat → Bool) :
    ∀ (l : List MigratingAsset) (k : Nat) (v : MigrateFormValues),
      (migrateAssetsLoop d l k v).values.migratingAssets.value.length =
          v.migratingAssets.value.length ∧
      ∀ (j : Nat) (c0 c1 : MigratingAsset),
        v.migratingAssets.value[j]? = some c0 →
        (migrateAssetsLoop d l k v).values.migratingAssets.value[j]? = some c1 →
        c1.assetId = c0.assetId ∧ c1.fee = c0.fee ∧
        c1.migratableValues = c0.migratableValues ∧
        c1.migratedValues.length =
          c0.migratedValues.length + sendCount c0.assetId (migrateAssetsLoop d l k v).events := by
  intro l
  induction l with
  | nil =>
      intro k v
      refine ⟨rfl, ?_⟩
      intro j c0 c1 h0 h1
      simp only [migrateAssetsLoop] at h1
      rw [h0] at h1
      cases h1
      refine ⟨rfl, rfl, rfl, ?_⟩
      simp [migrateAssetsLoop, sendCount]
  | cons a rest ih =>
      intro k v
      obtain ⟨t, ht, hval, hsnap, hev, hidx, hchk, hab0, hab1⟩ :=
        migrateAssetPairs_spec d a.assetId a.fee a.migratableValues k v
      have hstep : ∀ (j : Nat) (c0 c1 : MigratingAsset),
          v.migratingAssets.value[j]? = some c0 →
          (migrateAssetPairs d a.assetId a.fee a.migratableValues k v).values.migratingAssets.value[j]? = some c1 →
          c1.assetId = c0.assetId ∧ c1.fee = c0.fee ∧
          c1.migratableValues = c0.migratableValues ∧
          c1.migratedValues.length =
            c0.migratedValues.length +
              sendCount c0.assetId (migrateAssetPairs d a.assetId a.fee a.migratableValues k v).events := by
        intro j c0 c1 h0 h1
        rw [hval, applyMigration_getElem, h0] at h1
        simp only [Option.map] at h1
        by_cases hid : c0.assetId = a.assetId
        · rw [if_pos hid] at h1
          cases h1
          refine ⟨rfl, rfl, rfl, ?_⟩
          rw [hev, hid, proofEvents_sendCount_self]
          rw [List.length_append, List.length_take, pairAmounts_length]
        · rw [if_neg hid] at h1
          cases h1
          refine ⟨rfl, rfl, rfl, ?_⟩
          rw [hev, proofEvents_sendCount_other a.assetId c0.assetId a.fee hid]
          omega
      have hsteplen : (migrateAssetPairs d a.assetId a.fee a.migratableValues k v).values.migratingAssets.value.length
          = v.migratingAssets.value.length := by
        rw [hval, applyMigration_length]
      by_cases hab : (migrateAssetPairs d a.assetId a.fee a.migratableValues k v).aborted
      · refine ⟨?_, ?_⟩
        · simp only [migrateAssetsLoop, hab, ite_true]
          exact hsteplen
        · intro j c0 c1 h0 h1
          simp only [migrateAssetsLoop, hab, ite_true] at h1 ⊢
          exact hstep j c0 c1 h0 h1
      · have hnab : (migrateAssetPairs d a.assetId a.fee a.migratableValues k v).aborted = false := by
          simpa using hab
        obtain ⟨ihlen, ihrel⟩ :=
          ih (migrateAssetPairs d a.assetId a.fee a.migratableValues k v).checkIndex
            (migrateAssetPairs d a.assetId a.fee a.migratableValues k v).values
        refine ⟨?_, ?_⟩
        · simp only [migrateAssetsLoop, hnab, Bool.false_eq_true, ite_false]
          rw [ihlen, hsteplen]
        · intro j c0 c1 h0 h1
          simp only [migrateAssetsLoop, hnab, Bool.false_eq_true, ite_false] at h1 ⊢
          have hjlt : j < v.migratingAssets.value.length := by
            by_contra hge
            push_neg at hge
            rw [List.getElem?_eq_none hge] at h0
            cases h0
          have hjlt2 : j <
              (migrateAssetPairs d a.assetId a.fee a.migratableValues k v).values.migratingAssets.value.length := by
            rw [hsteplen]
            exact hjlt
          cases hcm : (migrateAssetPairs d a.assetId a.fee a.migratableValues k v).values.migratingAssets.value[j]? with
          | none =>
              rw [List.getElem?_eq_none_iff] at hcm
              omega
          | some cm =>
              obtain ⟨e1, e2, e3, e4⟩ := hstep j c0 cm h0 hcm
              obtain ⟨f1, f2, f3, f4⟩ := ihrel j cm c1 hcm h1
              refine ⟨by rw [f1, e1], by rw [f2, e2], by rw [f3, e3], ?_⟩
              rw [sendCount_append, f4, e4, e1]
              omega

/-- The shape invariant of the migration loop: every migrated list is an
initial segment of the sent amounts computed from the fee and the
migratable values of its asset. -/
def migratedShape (v : MigrateFormValues) : Prop :=
  ∀ a ∈ v.migratingAssets.value,
    ∃ m, a.migratedValues = (pairAmounts a.fee a.migratableValues).take m

theorem applyMigration_shape (a : MigratingAsset) (t : Nat) (v : MigrateFormValues)
    (hQ : ∀ c ∈ v.migratingAssets.value, c.assetId = a.assetId →
      c.migratedValues = [] ∧ c.fee = a.fee ∧ c.migratableValues = a.migratableValues)
    (hP : migratedShape v) :
    migratedShape (applyMigration a.assetId a.fee a.migratableValues t v) := by
  intro c2 hc2
  unfold applyMigration at hc2
  rw [setMigratingAssets_value] at hc2
  obtain ⟨c, hc, hfc⟩ := List.mem_map.mp hc2
  by_cases hid : c.assetId = a.assetId
  · obtain ⟨hmv, hfee, hmig⟩ := hQ c hc hid
    rw [← hfc, if_pos hid]
    refine ⟨t, ?_⟩
    simp only [hmv, hfee, hmig, List.nil_append]
  · rw [← hfc, if_neg hid]
    exact hP c hc

theorem applyMigration_keepsQ (a : MigratingAsset) (t : Nat) (v : MigrateFormValues)
    (rest : List MigratingAsset)
    (hne : ∀ b ∈ rest, b.assetId ≠ a.assetId)
    (hQ : ∀ b ∈ rest, ∀ c ∈ v.migratingAssets.value, c.assetId = b.assetId →
      c.migratedValues = [] ∧ c.fee = b.fee ∧ c.migratableValues = b.migratableValues) :
    ∀ b ∈ rest, ∀ c2 ∈ (applyMigration a.assetId a.fee a.migratableValues t v).migratingAssets.value,
      c2.assetId = b.assetId →
      c2.migratedValues = [] ∧ c2.fee = b.fee ∧ c2.migratableValues = b.migratableValues := by
  intro b hb c2 hc2 hcb
  unfold applyMigration at hc2
  rw [setMigratingAssets_value] at hc2
  obtain ⟨c, hc, hfc⟩ := List.mem_map.mp hc2
  by_cases hid : c.assetId = a.assetId
  · rw [← hfc, if_pos hid] at hcb
    exact absurd (by rw [← hcb]; exact hid) (Ne.symm (fun he => hne b hb he.symm))
  · rw [← hfc, if_neg hid] at hcb ⊢
    exact hQ b hb c hc hcb

theorem migrateAssetsLoop_shape (d : Nat → Bool) :
    ∀ (l : List MigratingAsset) (k : Nat) (v : MigrateFormValues),
      (l.map (fun a => a.assetId)).Nodup →
      (∀ b ∈ l, ∀ c ∈ v.migratingAssets.value, c.assetId = b.assetId →
        c.migratedValues = [] ∧ c.fee = b.fee ∧ c.migratableValues = b.migratableValues) →
      migratedShape v →
      migratedShape (migrateAssetsLoop d l k v).values ∧
      (∀ w ∈ (migrateAssetsLoop d l k v).snapshots, migratedShape w) := by
  intro l
  induction l with
  | nil =>
      intro k v hnd hQ hP
      exact ⟨hP, by simp [migrateAssetsLoop]⟩
  | cons a rest ih =>
      intro k v hnd hQ hP
      obtain ⟨t, ht, hval, hsnap, hev, hidx, hchk, hab0, hab1⟩ :=
        migrateAssetPairs_spec d a.assetId a.fee a.migratableValues k v
      have hQa : ∀ c ∈ v.migratingAssets.value, c.assetId = a.assetId →
          c.migratedValues = [] ∧ c.fee = a.fee ∧ c.migratableValues = a.migratableValues :=
        fun c hc hcc => hQ a (List.mem_cons_self a rest) c hc hcc
      have hne : ∀ b ∈ rest, b.assetId ≠ a.assetId := by
        intro b hb
        rw [List.map_cons, List.nodup_cons] at hnd
        intro he
        exact hnd.1 (he ▸ List.mem_map_of_mem (fun x => x.assetId) hb)
      have hndr : (rest.map (fun x => x.assetId)).Nodup := by
        rw [List.map_cons, List.nodup_cons] at hnd
        exact hnd.2
      have hQrest : ∀ b ∈ rest, ∀ c ∈ v.migratingAssets.value, c.assetId = b.assetId →
          c.migratedValues = [] ∧ c.fee = b.fee ∧ c.migratableValues = b.migratableValues :=
        fun b hb => hQ b (List.mem_cons_of_mem a hb)
      have hvalshape : migratedShape
          (migrateAssetPairs d a.assetId a.fee a.migratableValues k v).values := by
        rw [hval]
        exact applyMigration_shape a t v hQa hP
      have hsnapshape : ∀ w ∈ (migrateAssetPairs d a.assetId a.fee a.migratableValues k v).snapshots,
          migratedShape w := by
        intro w hw
        rw [hsnap] at hw
        obtain ⟨i, hi, hwi⟩ := List.mem_map.mp hw
        rw [← hwi]
        exact applyMigration_shape a (i + 1) v hQa hP
      by_cases hab : (migrateAssetPairs d a.assetId a.fee a.migratableValues k v).aborted
      · constructor
        · simp only [migrateAssetsLoop, hab, ite_true]
          exact hvalshape
        · simp only [migrateAssetsLoop, hab, ite_true]
          exact hsnapshape
      · have hnab : (migrateAssetPairs d a.assetId a.fee a.migratableValues k v).aborted = false := by
          simpa using hab
        have hQ2 : ∀ b ∈ rest, ∀ c ∈
            (migrateAssetPairs d a.assetId a.fee a.migratableValues k v).values.migratingAssets.value,
            c.assetId = b.assetId →
            c.migratedValues = [] ∧ c.fee = b.fee ∧ c.migratableValues = b.migratableValues := by
          rw [hval]
          exact applyMigration_keepsQ a t v rest hne hQrest
        obtain ⟨ih1, ih2⟩ := ih
          (migrateAssetPairs d a.assetId a.fee a.migratableValues k v).checkIndex
          (migrateAssetPairs d a.assetId a.fee a.migratableValues k v).values
          hndr hQ2 hvalshape
        constructor
        · simp only [migrateAssetsLoop, hnab, Bool.false_eq_true, ite_false]
          exact ih1
        · simp only [migrateAssetsLoop, hnab, Bool.false_eq_true, ite_false]
          intro w hw
          rw [List.mem_append] at hw
          rcases hw with hw | hw
          · exact hsnapshape w hw
          · exact ih2 w hw

/-- Claim C3 exactly as stated: at every point during migration, each
migrated list is a subsequence of the migratable list of its asset,
accumulated as sends succeed. -/
def claimThreeStatement : Prop :=
  ∀ (d : Nat → Bool) (v : MigrateFormValues),
    (∀ a ∈ v.migratingAssets.value, a.migratedValues = []) →
    ∀ w ∈ (migrateNotes d v).snapshots ++ [(migrateNotes d v).values],
      ∀ a ∈ w.migratingAssets.value, a.migratedValues.Sublist a.migratableValues

/-- Counterexample to claim C3 as stated: migrating one chunk of two notes
of value 10 with fee 2 records the sent amount 18 in migratedValues, and
the one-element list holding 18 is not a subsequence of the migratable
values 10, 10. -/
theorem claim_c3_counterexample : ¬ claimThreeStatement := by
  intro h
  have h2 := h (fun _ => false) vW (by decide)
  revert h2
  decide

/-- Claim C3 (amended): when the asset ids are distinct and migration starts
with empty migrated lists, then at every point during migration each asset
holds as migratedValues an initial segment of the per-chunk sent amounts
(chunk sum of migratableValues minus the fee), and at the end each asset has
exactly one migrated entry per successful proof submission for it. -/
theorem claim_c3_amended (d : Nat → Bool) (v : MigrateFormValues)
    (hnd : (v.migratingAssets.value.map (fun a => a.assetId)).Nodup)
    (h0 : ∀ a ∈ v.migratingAssets.value, a.migratedValues = []) :
    (∀ w ∈ (migrateNotes d v).snapshots ++ [(migrateNotes d v).values],
      ∀ a ∈ w.migratingAssets.value,
        ∃ m, a.migratedValues = (pairAmounts a.fee a.migratableValues).take m) ∧
    (∀ a ∈ (migrateNotes d v).values.migratingAssets.value,
      a.migratedValues.length = sendCount a.assetId (migrateNotes d v).events) := by
  have hinj := List.inj_on_of_nodup_map hnd
  have hQ0 : ∀ b ∈ v.migratingAssets.value,
      ∀ c ∈ ({ v with status := MigrateStatus.MIGRATE } : MigrateFormValues).migratingAssets.value,
      c.assetId = b.assetId →
      c.migratedValues = [] ∧ c.fee = b.fee ∧ c.migratableValues = b.migratableValues := by
    intro b hb c hc hcb
    have hcb2 : c = b := hinj hc hb hcb
    subst hcb2
    exact ⟨h0 c hc, rfl, rfl⟩
  have hP0 : migratedShape ({ v with status := MigrateStatus.MIGRATE } : MigrateFormValues) := by
    intro a ha
    exact ⟨0, by simp [h0 a ha]⟩
  obtain ⟨hshape_final, hshape_snaps⟩ :=
    migrateAssetsLoop_shape d v.migratingAssets.value 0
      { v with status := MigrateStatus.MIGRATE } hnd hQ0 hP0
  obtain ⟨hlen, hrel⟩ :=
    migrateAssetsLoop_counts d v.migratingAssets.value 0
      { v with status := MigrateStatus.MIGRATE }
  have hlen2 : (migrateAssetsLoop d v.migratingAssets.value 0
      { v with status := MigrateStatus.MIGRATE }).values.migratingAssets.value.length =
      v.migratingAssets.value.length := hlen
  have hcount : ∀ a ∈ (migrateAssetsLoop d v.migratingAssets.value 0
      { v with status := MigrateStatus.MIGRATE }).values.migratingAssets.value,
      a.migratedValues.length = sendCount a.assetId
        (migrateAssetsLoop d v.migratingAssets.value 0
          { v with status := MigrateStatus.MIGRATE }).events := by
    intro a ha
    obtain ⟨j, hj⟩ := List.mem_iff_getElem?.mp ha
    cases hc0 : v.migratingAssets.value[j]? with
    | none =>
        rw [List.getElem?_eq_none_iff] at hc0
        have hjlt : j < (migrateAssetsLoop d v.migratingAssets.value 0
            { v with status := MigrateStatus.MIGRATE }).values.migratingAssets.value.length := by
          by_contra hge
          push_neg at hge
          rw [List.getElem?_eq_none hge] at hj
          cases hj
        rw [hlen2] at hjlt
        omega
    | some c0 =>
        obtain ⟨e1, e2, e3, e4⟩ := hrel j c0 a hc0 hj
        have hc0mem : c0 ∈ v.migratingAssets.value := List.getElem?_mem hc0
        rw [e4, h0 c0 hc0mem, e1]
        simp
  by_cases hab : (migrateAssetsLoop d v.migratingAssets.value 0
      { v with status := MigrateStatus.MIGRATE }).aborted
  · constructor
    · intro w hw
      simp only [migrateNotes, hab, ite_true] at hw
      simp only [List.mem_append, List.mem_cons, List.mem_singleton,
        List.not_mem_nil, or_false, or_assoc] at hw
      rcases hw with hw | hw | hw
      · subst hw
        exact hP0
      · exact hshape_snaps w hw
      · subst hw
        exact hshape_final
    · intro a ha
      simp only [migrateNotes, hab, ite_true] at ha ⊢
      exact hcount a ha
  · have hnab : (migrateAssetsLoop d v.migratingAssets.value 0
        { v with status := MigrateStatus.MIGRATE }).aborted = false := by
      simpa using hab
    constructor
    · intro w hw
      simp only [migrateNotes, hnab, Bool.false_eq_true, ite_false] at hw
      simp only [List.mem_append, List.mem_cons, List.mem_singleton,
        List.not_mem_nil, or_false, or_assoc] at hw
      rcases hw with hw | hw | hw | hw
      · subst hw
        exact hP0
      · exact hshape_snaps w hw
      · subst hw
        exact hshape_final
      · subst hw
        exact hshape_final
    · intro a ha
      simp only [migrateNotes, hnab, Bool.false_eq_true, ite_false] at ha ⊢
      rw [sendCount_append, sendCount_removeUser, Nat.add_zero]
      exact hcount a ha

/-- Witness for claim C3 (amended) on the concrete one-asset form. -/
theorem claim_c3_amended_witness :
    (∀ w ∈ (migrateNotes (fun _ => false) vW).snapshots ++
        [(migrateNotes (fun _ => false) vW).values],
      ∀ a ∈ w.migratingAssets.value,
        ∃ m, a.migratedValues = (pairAmounts a.fee a.migratableValues).take m) ∧
    (∀ a ∈ (migrateNotes (fun _ => false) vW).values.migratingAssets.value,
      a.migratedValues.length =
        sendCount a.assetId (migrateNotes (fun _ => false) vW).events) :=
  claim_c3_amended (fun _ => false) vW (by decide) (by decide)

/-! ## The status ordering claims -/

/-- The relaxed step relation on statuses: forward moves, re-entering
VALIDATE when submit is invoked, and the VALIDATE to CONFIRM fallback of a
failed validation. -/
def statusStep (a b : MigrateStatus) : Prop :=
  a.toNat ≤ b.toNat ∨ b = MigrateStatus.VALIDATE ∨
    (a = MigrateStatus.VALIDATE ∧ b = MigrateStatus.CONFIRM)

instance : DecidableRel statusStep := fun a b =>
  inferInstanceAs (Decidable (a.toNat ≤ b.toNat ∨ b = MigrateStatus.VALIDATE ∨
    (a = MigrateStatus.VALIDATE ∧ b = MigrateStatus.CONFIRM)))

/-- Claim C1 exactly as stated: from every reachable state, every operation
only ever writes statuses that move forward in the linear order. -/
def claimOneStatement : Prop :=
  ∀ (assetIds : List Nat) (st : MigrateFormState), Reachable assetIds st →
    ∀ op : MigrateOp, List.Chain' statusLE (statusTrace op st)

/-- A concrete provider environment connecting a wallet whose previous
account holds two notes of value 10 at fee 5. -/
def envC : ProviderEnv :=
  { hasProvider := true
    promptMessage := "sign this message"
    signSuccess := true
    destroyedNow := false
    sync := { getFee := fun _ => 5, getSpendableNotes := fun _ => [10, 10] } }

/-- Counterexample to claim C1 as stated: after connecting and syncing (fee
5, migratable notes 10 and 10) the form is reachable in CONFIRM; submitting
while the current fee has risen to 7 writes VALIDATE and then falls back to
CONFIRM, a backward move. -/
theorem claim_c1_counterexample : ¬ claimOneStatement := by
  intro h
  have hr : Reachable [0] (runOp (MigrateOp.providerChange envC) (initialState [0])).state :=
    Reachable.step (initialState [0]) (MigrateOp.providerChange envC) Reachable.init
  have h2 := h [0] _ hr (MigrateOp.submitOp (fun _ => 7) (fun _ => false))
  have htr : statusTrace (MigrateOp.submitOp (fun _ => 7) (fun _ => false))
      (runOp (MigrateOp.providerChange envC) (initialState [0])).state =
      [MigrateStatus.CONFIRM, MigrateStatus.VALIDATE, MigrateStatus.CONFIRM] := by decide
  rw [htr] at h2
  have hbad : statusLE MigrateStatus.VALIDATE MigrateStatus.CONFIRM :=
    (List.chain'_cons.mp (List.chain'_cons.mp h2).2).1
  exact absurd hbad (by decide)

theorem chain_const_then (l : List MigrateStatus)
    (h : ∀ x ∈ l, x = MigrateStatus.MIGRATE) :
    ∀ tail : List MigrateStatus,
      (tail = [] ∨ tail = [MigrateStatus.DONE]) →
      List.Chain' statusStep (MigrateStatus.MIGRATE :: (l ++ tail)) := by
  induction l with
  | nil =>
      intro tail ht
      rcases ht with rfl | rfl
      · simp
      · exact List.chain'_pair.mpr (Or.inl (by decide))
  | cons x rest ih =>
      intro tail ht
      have hx := h x (List.mem_cons_self x rest)
      subst hx
      rw [List.cons_append]
      refine List.chain'_cons.mpr ⟨Or.inl (le_refl _), ?_⟩
      exact ih (fun y hy => h y (List.mem_cons_of_mem _ hy)) tail ht

theorem migrateNotes_statusChain (d : Nat → Bool) (v : MigrateFormValues)
    (s0 : MigrateStatus) :
    List.Chain' statusStep
      (s0 :: MigrateStatus.VALIDATE ::
        (migrateNotes d v).snapshots.map (fun w => w.status)) := by
  obtain ⟨T, hidx, hle, hchk, hab0, hab1, hsend, hrem, hstat, hsnap⟩ :=
    migrateAssetsLoop_spec d v.migratingAssets.value 0
      { v with status := MigrateStatus.MIGRATE }
  have hall : ∀ x ∈ (migrateAssetsLoop d v.migratingAssets.value 0
      { v with status := MigrateStatus.MIGRATE }).snapshots.map (fun w => w.status),
      x = MigrateStatus.MIGRATE := by
    intro x hx
    obtain ⟨w, hw, hwx⟩ := List.mem_map.mp hx
    rw [← hwx]
    exact hsnap w hw
  by_cases hab : (migrateAssetsLoop d v.migratingAssets.value 0
      { v with status := MigrateStatus.MIGRATE }).aborted
  · refine List.chain'_cons.mpr ⟨Or.inr (Or.inl rfl), ?_⟩
    simp only [migrateNotes, hab, ite_true, List.map_cons]
    refine List.chain'_cons.mpr ⟨Or.inl (by decide), ?_⟩
    have := chain_const_then _ hall [] (Or.inl rfl)
    simpa using this
  · have hnab : (migrateAssetsLoop d v.migratingAssets.value 0
        { v with status := MigrateStatus.MIGRATE }).aborted = false := by
      simpa using hab
    refine List.chain'_cons.mpr ⟨Or.inr (Or.inl rfl), ?_⟩
    simp only [migrateNotes, hnab, Bool.false_eq_true, ite_false, List.map_cons,
      List.map_append, List.map_nil]
    refine List.chain'_cons.mpr ⟨Or.inl (by decide), ?_⟩
    exact chain_const_then _ hall [MigrateStatus.DONE] (Or.inr rfl)

theorem submitEntryValues_status (st : MigrateFormState) :
    (submitEntryValues st).status = MigrateStatus.VALIDATE := rfl

theorem submit_eq (gf : Nat → Int) (d : Nat → Bool) (st : MigrateFormState)
    (hp : st.formStatus ≠ FormStatus.PROCESSING) :
    submit gf d st =
      if isValidForm (validateValues gf (submitEntryValues st)) = false then
        { state :=
            { values :=
                { validateValues gf (submitEntryValues st) with
                  status := MigrateStatus.CONFIRM
                  submit := clearMessage
                    { (validateValues gf (submitEntryValues st)).submit with value := false } }
              formStatus := FormStatus.LOCKED }
          snapshots := [submitEntryValues st,
            { validateValues gf (submitEntryValues st) with
              status := MigrateStatus.CONFIRM
              submit := clearMessage
                { (validateValues gf (submitEntryValues st)).submit with value := false } }]
          events := [] }
      else
        { state :=
            { values := (migrateNotes d (submitEntryValues st)).values
              formStatus := FormStatus.LOCKED }
          snapshots := submitEntryValues st :: (migrateNotes d (submitEntryValues st)).snapshots
          events := (migrateNotes d (submitEntryValues st)).events } := by
  unfold submit
  rw [if_neg hp]
  cases hb : isValidForm (validateValues gf (submitEntryValues st)) <;> simp [hb]

/-- Claim C1 (amended): for every reachable state of the form and every
operation, each successive status write moves forward in the linear order
except that submit first (re)enters VALIDATE from any state, and a failed
validation moves VALIDATE back to CONFIRM. -/
theorem claim_c1_amended (assetIds : List Nat) (st : MigrateFormState)
    (hreach : Reachable assetIds st) (op : MigrateOp) :
    List.Chain' statusStep (statusTrace op st) := by
  cases op with
  | providerChange env =>
      by_cases hc : st.values.status = MigrateStatus.CONNECT
      · cases hhp : env.hasProvider with
        | false =>
            simp [statusTrace, runOp, onProviderStateChange, hc, hhp, statusStep,
              MigrateStatus.toNat]
        | true =>
            cases hss : env.signSuccess with
            | false =>
                simp [statusTrace, runOp, onProviderStateChange, hc, hhp, hss, statusStep,
                  MigrateStatus.toNat]
            | true =>
                cases hdn : env.destroyedNow with
                | false =>
                    simp [statusTrace, runOp, onProviderStateChange, syncBalance,
                      setMigratingAssets, syncedAssets, hc, hhp, hss, hdn, statusStep,
                      MigrateStatus.toNat]
                | true =>
                    simp [statusTrace, runOp, onProviderStateChange, hc, hhp, hss, hdn,
                      statusStep, MigrateStatus.toNat]
      · simp [statusTrace, runOp, onProviderStateChange, hc]
  | submitOp gf d =>
      by_cases hp : st.formStatus = FormStatus.PROCESSING
      · simp [statusTrace, runOp, submit, hp]
      · cases hv : isValidForm (validateValues gf (submitEntryValues st)) with
        | false =>
            show List.Chain' statusStep
              (st.values.status :: (submit gf d st).snapshots.map (fun v => v.status))
            rw [submit_eq gf d st hp, if_pos hv]
            simp only [List.map_cons, List.map_nil, submitEntryValues_status]
            refine List.chain'_cons.mpr ⟨Or.inr (Or.inl rfl), ?_⟩
            refine List.chain'_pair.mpr (Or.inr (Or.inr ⟨rfl, rfl⟩))
        | true =>
            show List.Chain' statusStep
              (st.values.status :: (submit gf d st).snapshots.map (fun v => v.status))
            rw [submit_eq gf d st hp, if_neg (by simp [hv])]
            simp only [List.map_cons, submitEntryValues_status]
            exact migrateNotes_statusChain d (submitEntryValues st) st.values.status

/-- Witness for claim C1 (amended): a submit from the reachable initial
state only makes allowed status moves. -/
theorem claim_c1_amended_witness :
    List.Chain' statusStep
      (statusTrace (MigrateOp.submitOp (fun _ => 0) (fun _ => false)) (initialState [0])) :=
  claim_c1_amended [0] (initialState [0]) Reachable.init
    (MigrateOp.submitOp (fun _ => 0) (fun _ => false))

/-! ## The validation claim -/

theorem validateAssets_eq_true_iff (gf : Nat → Int) :
    ∀ l : List MigratingAsset,
      validateAssets gf l = true ↔ ∃ a ∈ l, gf a.assetId > a.fee := by
  intro l
  induction l with
  | nil => simp [validateAssets]
  | cons a rest ih =>
      by_cases hc : gf a.assetId > a.fee
      · simp only [validateAssets, if_pos hc, true_iff]
        exact ⟨a, List.mem_cons_self a rest, hc⟩
      · simp only [validateAssets, if_neg hc, ih]
        constructor
        · rintro ⟨b, hb, hgb⟩
          exact ⟨b, List.mem_cons_of_mem a hb, hgb⟩
        · rintro ⟨b, hb, hgb⟩
          rcases List.mem_cons.mp hb with rfl | hb2
          · exact absurd hgb hc
          · exact ⟨b, hb2, hgb⟩

/-- Claim C2 exactly as stated: during submit, an asset with a current fee
above its stored fee makes the form fall back to CONFIRM locked with the
insufficient-fee message and no proof sent; otherwise validation passes and
migrateNotes runs. -/
def claimTwoStatement : Prop :=
  ∀ (gf : Nat → Int) (d : Nat → Bool) (st : MigrateFormState),
    st.formStatus ≠ FormStatus.PROCESSING →
    ((∃ a ∈ st.values.migratingAssets.value, gf a.assetId > a.fee) →
      (submit gf d st).state.values.migratingAssets.message = some "Insufficient fee." ∧
      (submit gf d st).state.values.migratingAssets.messageType = some MessageType.ERROR ∧
      (submit gf d st).state.values.status = MigrateStatus.CONFIRM ∧
      (submit gf d st).state.values.submit.value = false ∧
      (submit gf d st).state.formStatus = FormStatus.LOCKED ∧
      (submit gf d st).events = []) ∧
    ((∀ a ∈ st.values.migratingAssets.value, gf a.assetId ≤ a.fee) →
      submit gf d st =
        { state :=
            { values := (migrateNotes d (submitEntryValues st)).values
              formStatus := FormStatus.LOCKED }
          snapshots := submitEntryValues st :: (migrateNotes d (submitEntryValues st)).snapshots
          events := (migrateNotes d (submitEntryValues st)).events })

/-- Counterexample to claim C2 as stated: after a submit that failed
validation, the insufficient-fee error stays on the migratingAssets field;
a second submit whose current fees are all 0 (not above the stored fee 5)
still fails isValidForm on the stale message, falls back to CONFIRM and
never invokes migrateNotes. -/
theorem claim_c2_counterexample : ¬ claimTwoStatement := by
  intro h
  have h2 := (h (fun _ => 0) (fun _ => false)
      (submit (fun _ => 7) (fun _ => false)
        (runOp (MigrateOp.providerChange envC) (initialState [0])).state).state
      (by decide)).2 (by decide)
  exact absurd (congrArg OpResult.events h2) (by decide)

/-- Claim C2 (amended): provided the migratingAssets field does not already
carry an error message when submit starts, validation behaves as claimed:
a current fee above a stored fee attaches the insufficient-fee error and
falls back to CONFIRM locked with no proof sent; otherwise migrateNotes
runs. -/
theorem claim_c2_amended (gf : Nat → Int) (d : Nat → Bool) (st : MigrateFormState)
    (hp : st.formStatus ≠ FormStatus.PROCESSING)
    (hclean : st.values.migratingAssets.messageType ≠ some MessageType.ERROR) :
    ((∃ a ∈ st.values.migratingAssets.value, gf a.assetId > a.fee) →
      (submit gf d st).state.values.migratingAssets.message = some "Insufficient fee." ∧
      (submit gf d st).state.values.migratingAssets.messageType = some MessageType.ERROR ∧
      (submit gf d st).state.values.status = MigrateStatus.CONFIRM ∧
      (submit gf d st).state.values.submit.value = false ∧
      (submit gf d st).state.formStatus = FormStatus.LOCKED ∧
      (submit gf d st).events = []) ∧
    ((∀ a ∈ st.values.migratingAssets.value, gf a.assetId ≤ a.fee) →
      submit gf d st =
        { state :=
            { values := (migrateNotes d (submitEntryValues st)).values
              formStatus := FormStatus.LOCKED }
          snapshots := submitEntryValues st :: (migrateNotes d (submitEntryValues st)).snapshots
          events := (migrateNotes d (submitEntryValues st)).events }) := by
  constructor
  · intro hex
    have hvt : validateAssets gf (submitEntryValues st).migratingAssets.value = true :=
      (validateAssets_eq_true_iff gf _).mpr hex
    have hval : validateValues gf (submitEntryValues st) =
        { submitEntryValues st with
          migratingAssets := withError (submitEntryValues st).migratingAssets
            "Insufficient fee." } := by
      unfold validateValues
      rw [if_pos hvt]
    have hv : isValidForm (validateValues gf (submitEntryValues st)) = false := by
      rw [hval]
      simp [isValidForm, fieldHasError, withError]
    rw [submit_eq gf d st hp, if_pos hv, hval]
    refine ⟨rfl, rfl, rfl, rfl, rfl, rfl⟩
  · intro hall
    have hvf : validateAssets gf (submitEntryValues st).migratingAssets.value = false := by
      rw [← Bool.not_eq_true, validateAssets_eq_true_iff]
      rintro ⟨a, ha, hga⟩
      exact absurd hga (not_lt.mpr (hall a ha))
    have hval : validateValues gf (submitEntryValues st) = submitEntryValues st := by
      unfold validateValues
      rw [if_neg (by simp [hvf])]
    have hv : isValidForm (validateValues gf (submitEntryValues st)) = true := by
      rw [hval]
      simp [isValidForm, fieldHasError, submitEntryValues, clearMessage]
      exact hclean
    rw [submit_eq gf d st hp, if_neg (by simp [hv])]

/-- Witness for claim C2 (amended): after connecting and syncing at fee 5,
submitting while the current fee is 7 attaches the insufficient-fee error
and sends nothing. -/
theorem claim_c2_amended_witness :
    (submit (fun _ => 7) (fun _ => false)
        (runOp (MigrateOp.providerChange envC)
          (initialState [0])).state).state.values.migratingAssets.message =
      some "Insufficient fee." ∧
    (submit (fun _ => 7) (fun _ => false)
        (runOp (MigrateOp.providerChange envC)
          (initialState [0])).state).state.values.migratingAssets.messageType =
      some MessageType.ERROR ∧
    (submit (fun _ => 7) (fun _ => false)
        (runOp (MigrateOp.providerChange envC)
          (initialState [0])).state).state.values.status = MigrateStatus.CONFIRM ∧
    (submit (fun _ => 7) (fun _ => false)
        (runOp (MigrateOp.providerChange envC)
          (initialState [0])).state).state.values.submit.value = false ∧
    (submit (fun _ => 7) (fun _ => false)
        (runOp (MigrateOp.providerChange envC)
          (initialState [0])).state).state.formStatus = FormStatus.LOCKED ∧
    (submit (fun _ => 7) (fun _ => false)
        (runOp (MigrateOp.providerChange envC) (initialState [0])).state).events = [] :=
  (claim_c2_amended (fun _ => 7) (fun _ => false)
    (runOp (MigrateOp.providerChange envC) (initialState [0])).state
    (by decide) (by decide)).1 (by decide)

/-! ## The synchronisation claim -/

theorem migrateAssetsLoop_empty (d : Nat → Bool) :
    ∀ (l : List MigratingAsset) (k : Nat) (v : MigrateFormValues),
      (∀ a ∈ l, a.migratableValues = []) →
      migrateAssetsLoop d l k v =
        { values := v, snapshots := [], events := [], checkIndex := k, aborted := false } := by
  intro l
  induction l with
  | nil => intro k v h; rfl
  | cons a rest ih =>
      intro k v h
      have ha : a.migratableValues = [] := h a (List.mem_cons_self a rest)
      have hrest := ih k v (fun b hb => h b (List.mem_cons_of_mem a hb))
      simp only [migrateAssetsLoop, ha, migrateAssetPairs, Bool.false_eq_true, ite_false]
      rw [ih k v (fun b hb => h b (List.mem_cons_of_mem a hb))]
      rfl

/-- Claim C5: after the SYNC step, when no asset has migratable values the
previous-generation user is removed and no transfer proof is ever created
for the session (a later submit creates and sends none); when some asset
has migratable values the previous-generation user is not removed; in both
cases syncBalance ends with status CONFIRM and a LOCKED form, and creates
no proof itself. -/
theorem claim_c5_sync_skip (env : SyncEnv) (st : MigrateFormState) :
    ((∀ a ∈ syncedAssets env st, a.migratableValues = []) →
        MigrateEvent.removeUser ∈ (syncBalance env st).events ∧
        (∀ (gf : Nat → Int) (d : Nat → Bool),
          createCountAll (submit gf d (syncBalance env st).state).events = 0 ∧
          sendCountAll (submit gf d (syncBalance env st).state).events = 0)) ∧
    ((∃ a ∈ syncedAssets env st, a.migratableValues ≠ []) →
        MigrateEvent.removeUser ∉ (syncBalance env st).events) ∧
    (syncBalance env st).state.values.status = MigrateStatus.CONFIRM ∧
    (syncBalance env st).state.formStatus = FormStatus.LOCKED ∧
    createCountAll (syncBalance env st).events = 0 ∧
    sendCountAll (syncBalance env st).events = 0 := by
  refine ⟨?_, ?_, rfl, rfl, ?_⟩
  · intro hall
    have hany : (syncedAssets env st).any (fun a => !a.migratableValues.isEmpty) = false := by
      rw [List.any_eq_false]
      intro a ha
      simp [hall a ha]
    constructor
    · simp only [syncBalance, hany, Bool.false_eq_true, ite_false]
      simp
    · intro gf d
      have hp2 : (syncBalance env st).state.formStatus ≠ FormStatus.PROCESSING := by
        intro hcon
        cases hcon
      have hall2 : ∀ a ∈ (submitEntryValues
          (syncBalance env st).state).migratingAssets.value, a.migratableValues = [] := hall
      have hloop := migrateAssetsLoop_empty d
        (submitEntryValues (syncBalance env st).state).migratingAssets.value 0
        { submitEntryValues (syncBalance env st).state with status := MigrateStatus.MIGRATE }
        hall2
      have hnotes : (migrateNotes d (submitEntryValues (syncBalance env st).state)).events =
          [MigrateEvent.removeUser] := by
        simp only [migrateNotes, hloop, Bool.false_eq_true, ite_false, List.nil_append]
      cases hv : isValidForm (validateValues gf (submitEntryValues (syncBalance env st).state)) with
      | false =>
          rw [submit_eq gf d _ hp2, if_pos hv]
          exact ⟨rfl, rfl⟩
      | true =>
          rw [submit_eq gf d _ hp2, if_neg (by simp [hv])]
          refine ⟨?_, ?_⟩
          · show createCountAll (migrateNotes d (submitEntryValues (syncBalance env st).state)).events = 0
            rw [hnotes]
            rfl
          · show sendCountAll (migrateNotes d (submitEntryValues (syncBalance env st).state)).events = 0
            rw [hnotes]
            rfl
  · intro hex
    have hany : (syncedAssets env st).any (fun a => !a.migratableValues.isEmpty) = true := by
      rw [List.any_eq_true]
      obtain ⟨a, ha, hne⟩ := hex
      refine ⟨a, ha, ?_⟩
      simp [List.isEmpty_iff, hne]
    simp only [syncBalance, hany, ite_true]
    simp
  · cases hany : (syncedAssets env st).any (fun a => !a.migratableValues.isEmpty) with
    | false =>
        constructor <;> simp only [syncBalance, hany, Bool.false_eq_true, ite_false] <;> rfl
    | true =>
        constructor <;> simp only [syncBalance, hany, ite_true] <;> rfl

/-- Witness for claim C5: syncing an account with no spendable notes
removes the previous-generation user and a later submit creates no
proof. -/
theorem claim_c5_sync_skip_witness :
    MigrateEvent.removeUser ∈
      (syncBalance { getFee := fun _ => 5, getSpendableNotes := fun _ => [] }
        (initialState [0])).events ∧
    createCountAll (submit (fun _ => 0) (fun _ => false)
      (syncBalance { getFee := fun _ => 5, getSpendableNotes := fun _ => [] }
        (initialState [0])).state).events = 0 := by
  obtain ⟨h1, -⟩ := claim_c5_sync_skip
    { getFee := fun _ => 5, getSpendableNotes := fun _ => [] } (initialState [0])
  obtain ⟨ha, hb⟩ := h1 (by decide)
  exact ⟨ha, (hb (fun _ => 0) (fun _ => false)).1⟩

/-- Witness for claim C7 at interaction nonce 0 and input 0. -/
theorem claim_c7_unimplemented_witness :
    getInteractionPresentValue 0 0 = Except.error "Method not implemented." ∧
    getInteractionPresentValue 0 0 ≠ Except.ok [] :=
  ⟨(claim_c7_unimplemented.1 0 0).1, (claim_c7_unimplemented.1 0 0).2 []⟩

/-- Witness for claim C8 at the in-domain share id 1 and the out-of-domain
share id 3. -/
theorem claim_c8_minTokenOut_domain_witness :
    (∃ m, minTokenOut 1 = some m ∧ (m = 99 * 10 ^ 16 ∨ m = 96 * 10 ^ 16)) ∧
    minTokenOut 3 = none := by
  have h1 := (claim_c8_minTokenOut_domain { id := 0, erc20Address := "a" }
    { id := 0, erc20Address := "b" } { id := 0, erc20Address := "d" }
    { id := 1, erc20Address := "v" }
    { vaultAsset := fun _ => "u", tokenName := fun _ => "n",
      tokenSymbol := fun _ => "s", tokenDecimals := fun _ => 18 } 100).1 (by decide)
  have h3 := (claim_c8_minTokenOut_domain { id := 0, erc20Address := "a" }
    { id := 0, erc20Address := "b" } { id := 0, erc20Address := "d" }
    { id := 3, erc20Address := "v" }
    { vaultAsset := fun _ => "u", tokenName := fun _ => "n",
      tokenSymbol := fun _ => "s", tokenDecimals := fun _ => 18 } 100).2 (by decide)
  obtain ⟨m, hm1, hm2, -⟩ := h1
  exact ⟨⟨m, hm1, hm2⟩, h3.1⟩

/-- Witness for claim C9: a step below the current status with an error
message present is marked done. -/
theorem claim_c9_progress_flags_witness :
    (createProgress 1 (progressTemplateFailed (some "boom") (some MessageType.ERROR)) 0).done
      = true :=
  (claim_c9_progress_flags 1 0 (some "boom") (some MessageType.ERROR)).1.mpr (by decide)
